import Mathlib

/-!
Shallow embedding of the school-social-app backend handlers
(`src/server/src/handlers/*.ts`, `src/server/src/db/schema.ts`, and the
unnamed handler sources for `deleteUser` and `createPost`).

Rows are Lean structures mirroring the drizzle table schemas; the database
is a record of four row lists together with the per-table serial counters
and a logical clock standing for `new Date()`.  Each handler is a pure
function `Input → DB → Except HandlerError Output × DB` that performs the
same selects, inserts, updates and deletes, in the same order, as the
TypeScript source; a thrown `Error` becomes an `Except.error` carrying the
error kind of spec §7 and the source's message text.
-/

namespace SchoolSocial

inductive Role where
  | student
  | admin
deriving DecidableEq, Repr

inductive PostType where
  | text
  | image
  | video
  | announcement
deriving DecidableEq, Repr

/-- A row of the `users` table (db/schema.ts, usersTable). -/
structure UserRow where
  id : Nat
  username : String
  email : String
  name : String
  class_name : String
  profile_picture_url : Option String
  role : Role
  is_active : Bool
  created_at : Nat
  updated_at : Nat
deriving DecidableEq, Repr

/-- A row of the `posts` table (db/schema.ts, postsTable); the denormalized
counters are integers, as in the schema. -/
structure PostRow where
  id : Nat
  title : String
  content : String
  media_url : Option String
  media_type : Option String
  type : PostType
  author_id : Nat
  likes_count : Int
  comments_count : Int
  is_pinned : Bool
  created_at : Nat
  updated_at : Nat
deriving DecidableEq, Repr

/-- A row of the `comments` table (db/schema.ts, commentsTable). -/
structure CommentRow where
  id : Nat
  content : String
  post_id : Nat
  author_id : Nat
  created_at : Nat
  updated_at : Nat
deriving DecidableEq, Repr

/-- A row of the `likes` table (db/schema.ts, likesTable). -/
structure LikeRow where
  id : Nat
  post_id : Nat
  user_id : Nat
  created_at : Nat
deriving DecidableEq, Repr

/-- The relational store: the four tables, the serial id counters, and a
logical clock supplying the value of `new Date()` / `defaultNow()`. -/
structure DB where
  users : List UserRow
  posts : List PostRow
  comments : List CommentRow
  likes : List LikeRow
  next_user_id : Nat
  next_post_id : Nat
  next_comment_id : Nat
  next_like_id : Nat
  now : Nat
deriving DecidableEq, Repr

/-- The empty store: no rows, serials starting at 1. -/
def DB.empty : DB :=
  { users := [], posts := [], comments := [], likes := []
    next_user_id := 1, next_post_id := 1, next_comment_id := 1
    next_like_id := 1, now := 0 }

/-- Error taxonomy of spec §7; each carries the handler's message text. -/
inductive HandlerError where
  | notFound (msg : String)
  | uniquenessViolation (msg : String)
  | permissionDenied (msg : String)
  | conflict (msg : String)
deriving DecidableEq, Repr

/-- The schema-level `onDelete: 'cascade'` of `comments.post_id` and
`likes.post_id`: deleting a set of posts also deletes every comment and
like referencing one of the deleted posts. -/
def deletePostsWhere (db : DB) (f : PostRow → Bool) : DB :=
  let doomedIds := (db.posts.filter f).map (fun p => p.id)
  { db with
    posts := db.posts.filter (fun p => !(f p))
    comments := db.comments.filter (fun c => !(doomedIds.contains c.post_id))
    likes := db.likes.filter (fun l => !(doomedIds.contains l.post_id)) }

structure CreateUserInput where
  username : String
  email : String
  name : String
  class_name : String
  profile_picture_url : Option String
  role : Option Role
deriving DecidableEq, Repr

structure UpdateUserInput where
  id : Nat
  username : Option String
  email : Option String
  name : Option String
  class_name : Option String
  profile_picture_url : Option (Option String)
  role : Option Role
  is_active : Option Bool
deriving DecidableEq, Repr

structure CreatePostInput where
  title : String
  content : String
  media_url : Option String
  media_type : Option String
  type : PostType
  author_id : Nat
  is_pinned : Option Bool
deriving DecidableEq, Repr

structure UpdatePostInput where
  id : Nat
  title : Option String
  content : Option String
  media_url : Option (Option String)
  media_type : Option (Option String)
  is_pinned : Option Bool
deriving DecidableEq, Repr

structure CreateCommentInput where
  content : String
  post_id : Nat
  author_id : Nat
deriving DecidableEq, Repr

structure UpdateCommentInput where
  id : Nat
  content : String
deriving DecidableEq, Repr

/-- Shared shape of deleteUserInput / deletePostInput / deleteCommentInput. -/
structure DeleteInput where
  id : Nat
deriving DecidableEq, Repr

structure CreateLikeInput where
  post_id : Nat
  user_id : Nat
deriving DecidableEq, Repr

structure RemoveLikeInput where
  post_id : Nat
  user_id : Nat
deriving DecidableEq, Repr

/-- Modelled from the spec: the repository's `create_user.ts` handler is an
explicit placeholder stub ("Real code should be implemented here"), so the
create-user behavior is taken from spec §4.1: fail with a
UniquenessViolation if username or email already exists; on success insert
the new User with role defaulting to student, is_active = true and both
timestamps set to the creation time, and return it. -/
def createUser (input : CreateUserInput) (db : DB) :
    Except HandlerError UserRow × DB :=
  if (db.users.filter
      (fun u => u.username == input.username || u.email == input.email)).isEmpty then
    let row : UserRow :=
      { id := db.next_user_id, username := input.username, email := input.email
        name := input.name, class_name := input.class_name
        profile_picture_url := input.profile_picture_url
        role := input.role.getD Role.student, is_active := true
        created_at := db.now, updated_at := db.now }
    (Except.ok row,
      { db with users := db.users ++ [row], next_user_id := db.next_user_id + 1 })
  else
    (Except.error (HandlerError.uniquenessViolation "Username or email already exists"), db)

/-- update_user.ts: look the user up, then update only the supplied fields
plus updated_at. -/
def updateUser (input : UpdateUserInput) (db : DB) :
    Except HandlerError UserRow × DB :=
  match db.users.filter (fun u => u.id == input.id) with
  | [] => (Except.error (HandlerError.notFound "User not found"), db)
  | u :: _ =>
    let u1 : UserRow :=
      { u with
        username := input.username.getD u.username
        email := input.email.getD u.email
        name := input.name.getD u.name
        class_name := input.class_name.getD u.class_name
        profile_picture_url := input.profile_picture_url.getD u.profile_picture_url
        role := input.role.getD u.role
        is_active := input.is_active.getD u.is_active
        updated_at := db.now }
    (Except.ok u1,
      { db with users := db.users.map (fun v => if v.id == input.id then
          { v with
            username := input.username.getD v.username
            email := input.email.getD v.email
            name := input.name.getD v.name
            class_name := input.class_name.getD v.class_name
            profile_picture_url := input.profile_picture_url.getD v.profile_picture_url
            role := input.role.getD v.role
            is_active := input.is_active.getD v.is_active
            updated_at := db.now }
        else v) })

/-- deleteUser (unnamed handler source, part_000): check existence, delete
the user's likes, then the user's comments, then the user's posts (the
posts deletion cascades to those posts' comments and likes at the schema
level), then the user row.  Counters of surviving posts are not touched. -/
def deleteUser (input : DeleteInput) (db : DB) :
    Except HandlerError Bool × DB :=
  if (db.users.filter (fun u => u.id == input.id)).isEmpty then
    (Except.error (HandlerError.notFound "User not found"), db)
  else
    let db1 := { db with likes := db.likes.filter (fun l => !(l.user_id == input.id)) }
    let db2 := { db1 with comments := db1.comments.filter (fun c => !(c.author_id == input.id)) }
    let db3 := deletePostsWhere db2 (fun p => p.author_id == input.id)
    let db4 := { db3 with users := db3.users.filter (fun u => !(u.id == input.id)) }
    (Except.ok true, db4)

/-- createPost (unnamed handler source, part_001): verify the author
exists, reject announcements from non-admins, then insert; likes_count,
comments_count and (when the input omits it) is_pinned come from the
schema defaults. -/
def createPost (input : CreatePostInput) (db : DB) :
    Except HandlerError PostRow × DB :=
  match db.users.filter (fun u => u.id == input.author_id) with
  | [] => (Except.error (HandlerError.notFound "Author not found"), db)
  | author :: _ =>
    if input.type = PostType.announcement ∧ author.role ≠ Role.admin then
      (Except.error (HandlerError.permissionDenied "Only admin users can create announcements"), db)
    else
      let row : PostRow :=
        { id := db.next_post_id, title := input.title, content := input.content
          media_url := input.media_url, media_type := input.media_type
          type := input.type, author_id := input.author_id
          likes_count := 0, comments_count := 0
          is_pinned := input.is_pinned.getD false
          created_at := db.now, updated_at := db.now }
      (Except.ok row,
        { db with posts := db.posts ++ [row], next_post_id := db.next_post_id + 1 })

/-- update_post.ts: look the post up, then update only the supplied fields
plus updated_at; counters, type and author are untouched. -/
def updatePost (input : UpdatePostInput) (db : DB) :
    Except HandlerError PostRow × DB :=
  match db.posts.filter (fun p => p.id == input.id) with
  | [] => (Except.error (HandlerError.notFound "Post not found"), db)
  | p :: _ =>
    let p1 : PostRow :=
      { p with
        title := input.title.getD p.title
        content := input.content.getD p.content
        media_url := input.media_url.getD p.media_url
        media_type := input.media_type.getD p.media_type
        is_pinned := input.is_pinned.getD p.is_pinned
        updated_at := db.now }
    (Except.ok p1,
      { db with posts := db.posts.map (fun q => if q.id == input.id then
          { q with
            title := input.title.getD q.title
            content := input.content.getD q.content
            media_url := input.media_url.getD q.media_url
            media_type := input.media_type.getD q.media_type
            is_pinned := input.is_pinned.getD q.is_pinned
            updated_at := db.now }
        else q) })

/-- delete_post.ts: verify the post exists, then delete it; the schema
cascade removes its comments and likes. -/
def deletePost (input : DeleteInput) (db : DB) :
    Except HandlerError Bool × DB :=
  if (db.posts.filter (fun p => p.id == input.id)).isEmpty then
    (Except.error (HandlerError.notFound "Post not found"), db)
  else
    (Except.ok true, deletePostsWhere db (fun p => p.id == input.id))

/-- create_comment.ts: verify post then author, insert the comment, then
set the post's comments_count to the pre-read value plus one and refresh
updated_at. -/
def createComment (input : CreateCommentInput) (db : DB) :
    Except HandlerError CommentRow × DB :=
  match db.posts.filter (fun p => p.id == input.post_id) with
  | [] => (Except.error (HandlerError.notFound "Post not found"), db)
  | post :: _ =>
    if (db.users.filter (fun u => u.id == input.author_id)).isEmpty then
      (Except.error (HandlerError.notFound "User not found"), db)
    else
      let row : CommentRow :=
        { id := db.next_comment_id, content := input.content
          post_id := input.post_id, author_id := input.author_id
          created_at := db.now, updated_at := db.now }
      let db1 := { db with comments := db.comments ++ [row]
                           next_comment_id := db.next_comment_id + 1 }
      let db2 := { db1 with posts := db1.posts.map (fun q =>
        if q.id == input.post_id then
          { q with comments_count := post.comments_count + 1, updated_at := db.now }
        else q) }
      (Except.ok row, db2)

/-- update_comment.ts: issue the UPDATE setting content and updated_at on
the rows matching the id, with RETURNING; throw "Comment not found" when
the returned set is empty (in which case zero rows were affected), else
return the first updated row. -/
def updateComment (input : UpdateCommentInput) (db : DB) :
    Except HandlerError CommentRow × DB :=
  let db1 := { db with comments := db.comments.map (fun c =>
    if c.id == input.id then
      { c with content := input.content, updated_at := db.now }
    else c) }
  match (db.comments.filter (fun c => c.id == input.id)).map (fun c =>
      { c with content := input.content, updated_at := db.now }) with
  | [] => (Except.error (HandlerError.notFound "Comment not found"), db1)
  | c :: _ => (Except.ok c, db1)

/-- delete_comment.ts: look the comment up ("Comment not found"), look its
post up ("Associated post not found"), delete the comment, then set the
post's comments_count to `Math.max(0, pre-read - 1)` and refresh
updated_at. -/
def deleteComment (input : DeleteInput) (db : DB) :
    Except HandlerError Bool × DB :=
  match db.comments.filter (fun c => c.id == input.id) with
  | [] => (Except.error (HandlerError.notFound "Comment not found"), db)
  | comment :: _ =>
    match db.posts.filter (fun p => p.id == comment.post_id) with
    | [] => (Except.error (HandlerError.notFound "Associated post not found"), db)
    | post :: _ =>
      let db1 := { db with comments := db.comments.filter (fun c => !(c.id == input.id)) }
      let db2 := { db1 with posts := db1.posts.map (fun q =>
        if q.id == comment.post_id then
          { q with comments_count := max 0 (post.comments_count - 1), updated_at := db.now }
        else q) }
      (Except.ok true, db2)

/-- create_like.ts: verify the post exists ("does not exist"), reject a
duplicate (post_id, user_id) pair ("already liked"), insert the like, then
set the post's likes_count to the pre-read value plus one and refresh
updated_at.  There is no existence check on user_id. -/
def createLike (input : CreateLikeInput) (db : DB) :
    Except HandlerError LikeRow × DB :=
  match db.posts.filter (fun p => p.id == input.post_id) with
  | [] => (Except.error (HandlerError.notFound "Post does not exist"), db)
  | post :: _ =>
    if (db.likes.filter
        (fun l => l.post_id == input.post_id && l.user_id == input.user_id)).isEmpty then
      let row : LikeRow :=
        { id := db.next_like_id, post_id := input.post_id
          user_id := input.user_id, created_at := db.now }
      let db1 := { db with likes := db.likes ++ [row]
                           next_like_id := db.next_like_id + 1 }
      let db2 := { db1 with posts := db1.posts.map (fun q =>
        if q.id == input.post_id then
          { q with likes_count := post.likes_count + 1, updated_at := db.now }
        else q) }
      (Except.ok row, db2)
    else
      (Except.error (HandlerError.conflict "User has already liked this post"), db)

/-- remove_like.ts: if no matching like exists return success without
touching anything; otherwise delete the matching likes and apply the SQL
update `likes_count = likes_count - 1` (no floor) with a refreshed
updated_at to the post. -/
def removeLike (input : RemoveLikeInput) (db : DB) :
    Except HandlerError Bool × DB :=
  if (db.likes.filter
      (fun l => l.post_id == input.post_id && l.user_id == input.user_id)).isEmpty then
    (Except.ok true, db)
  else
    let db1 := { db with likes := (db.likes.filter
      (fun l => !(l.post_id == input.post_id && l.user_id == input.user_id))) }
    let db2 := { db1 with posts := db1.posts.map (fun q =>
      if q.id == input.post_id then
        { q with likes_count := q.likes_count - 1, updated_at := db.now }
      else q) }
    (Except.ok true, db2)

/-- One invocation of a store-mutating remote procedure of the RPC surface
(spec §6); the read procedures issue only SELECTs and leave the store
unchanged, so they are omitted from the step alphabet. -/
inductive HCall where
  | cUser (i : CreateUserInput)
  | uUser (i : UpdateUserInput)
  | dUser (i : DeleteInput)
  | cPost (i : CreatePostInput)
  | uPost (i : UpdatePostInput)
  | dPost (i : DeleteInput)
  | cComment (i : CreateCommentInput)
  | uComment (i : UpdateCommentInput)
  | dComment (i : DeleteInput)
  | cLike (i : CreateLikeInput)
  | rLike (i : RemoveLikeInput)
deriving DecidableEq, Repr

/-- Run a handler call, keeping only success/failure of the outcome. -/
def runCall : HCall → DB → Except HandlerError Unit × DB
  | HCall.cUser i, db => let r := createUser i db; (r.1.map (fun _ => ()), r.2)
  | HCall.uUser i, db => let r := updateUser i db; (r.1.map (fun _ => ()), r.2)
  | HCall.dUser i, db => let r := deleteUser i db; (r.1.map (fun _ => ()), r.2)
  | HCall.cPost i, db => let r := createPost i db; (r.1.map (fun _ => ()), r.2)
  | HCall.uPost i, db => let r := updatePost i db; (r.1.map (fun _ => ()), r.2)
  | HCall.dPost i, db => let r := deletePost i db; (r.1.map (fun _ => ()), r.2)
  | HCall.cComment i, db => let r := createComment i db; (r.1.map (fun _ => ()), r.2)
  | HCall.uComment i, db => let r := updateComment i db; (r.1.map (fun _ => ()), r.2)
  | HCall.dComment i, db => let r := deleteComment i db; (r.1.map (fun _ => ()), r.2)
  | HCall.cLike i, db => let r := createLike i db; (r.1.map (fun _ => ()), r.2)
  | HCall.rLike i, db => let r := removeLike i db; (r.1.map (fun _ => ()), r.2)

/-- The store after a handler call. -/
def applyCall (c : HCall) (db : DB) : DB := (runCall c db).2

/-- Run a finite sequence of handler calls; the logical clock advances
between invocations. -/
def runCalls : List HCall → DB → DB
  | [], db => db
  | c :: cs, db => runCalls cs { applyCall c db with now := db.now + 1 }

def HCall.isDeleteUser : HCall → Bool
  | HCall.dUser _ => true
  | _ => false

/-- Number of comment rows referencing the given post id. -/
def commentCount (cs : List CommentRow) (pid : Nat) : Nat :=
  (cs.filter (fun c => c.post_id == pid)).length

/-- Number of like rows referencing the given post id. -/
def likeCount (ls : List LikeRow) (pid : Nat) : Nat :=
  (ls.filter (fun l => l.post_id == pid)).length

/-- Boolean check of the spec §3 counter invariant: every post's
denormalized counters equal the number of child rows referencing it. -/
def countersExactB (db : DB) : Bool :=
  db.posts.all (fun p =>
    p.comments_count == (commentCount db.comments p.id : Int) &&
    p.likes_count == (likeCount db.likes p.id : Int))

/-- Boolean check that every post's counters are non-negative. -/
def countersNonnegB (db : DB) : Bool :=
  db.posts.all (fun p =>
    decide (0 ≤ p.comments_count) && decide (0 ≤ p.likes_count))

/-! ### List helper lemmas -/

/-- Membership and satisfaction of the head of a nonempty filter result. -/
lemma head_filter_mem {α : Type} {l : List α} {q : α → Bool} {c : α} {rest : List α}
    (h : l.filter q = c :: rest) : c ∈ l ∧ q c = true := by
  have hc : c ∈ l.filter q := by
    rw [h]; exact List.mem_cons_self c rest
  simpa using List.mem_filter.mp hc

/-- In a list whose keys are pairwise distinct, filtering for one key value
returns exactly the one element carrying it. -/
lemma filter_key_single {α β : Type} (f : α → β) (q : α → Bool) (x : β)
    (hq : ∀ a, q a = true ↔ f a = x)
    {l : List α} (hn : (l.map f).Nodup) {c : α} (hc : c ∈ l) (hx : f c = x) :
    l.filter q = [c] := by
  induction l with
  | nil => cases hc
  | cons d t ih =>
    rw [List.map_cons, List.nodup_cons] at hn
    by_cases hd : q d = true
    · have hfd : f d = x := (hq d).mp hd
      have hct : c = d := by
        rcases List.mem_cons.mp hc with h | h
        · exact h
        · exfalso
          have : f c ∈ t.map f := List.mem_map_of_mem f h
          rw [hx, ← hfd] at this
          exact hn.1 this
      have ht : t.filter q = [] := by
        rw [List.filter_eq_nil_iff]
        intro a ha hqa
        have hfa : f a = x := (hq a).mp hqa
        have : f a ∈ t.map f := List.mem_map_of_mem f ha
        rw [hfa, ← hfd] at this
        exact hn.1 this
      subst hct
      simp [List.filter_cons, hd, ht]
    · have hcd : c ≠ d := by
        intro h
        exact hd (h ▸ (hq c).mpr hx)
      have hct : c ∈ t := by
        rcases List.mem_cons.mp hc with h | h
        · exact absurd h hcd
        · exact h
      simp only [List.filter_cons, hd, if_false, Bool.false_eq_true]
      exact ih hn.2 hct

/-- Splitting a count between the elements removed by a Boolean test and
those kept. -/
lemma length_filter_not_add {α : Type} (l : List α) (p r : α → Bool) :
    ((l.filter (fun a => !(p a))).filter r).length
      + ((l.filter p).filter r).length = (l.filter r).length := by
  induction l with
  | nil => simp
  | cons a t ih =>
    by_cases hp : p a = true <;> by_cases hr : r a = true <;>
      simp [List.filter_cons, hp, hr, -List.filter_filter] <;> omega

/-- Removing elements that the kept test can never select leaves a filter
unchanged. -/
lemma filter_not_filter_of_imp {α : Type} (l : List α) (p r : α → Bool)
    (h : ∀ a ∈ l, r a = true → p a = false) :
    (l.filter (fun a => !(p a))).filter r = l.filter r := by
  induction l with
  | nil => rfl
  | cons a t ih =>
    have ht := ih (fun b hb => h b (List.mem_cons_of_mem a hb))
    by_cases hp : p a = true
    · have hr : r a = false := by
        cases hra : r a with
        | false => rfl
        | true => exact absurd (h a (List.mem_cons_self a t) hra) (by simp [hp])
      simp [List.filter_cons, hp, hr, ht]
    · by_cases hr : r a = true <;> simp [List.filter_cons, hp, hr, ht]

/-- Appending a fresh key keeps the key list pairwise distinct. -/
lemma nodup_append_singleton {α : Type} {l : List α} {x : α}
    (hl : l.Nodup) (hx : x ∉ l) : (l ++ [x]).Nodup := by
  simp [List.nodup_append, hl, hx]

/-- A sublist never has the larger filtered length. -/
lemma length_filter_le_of_sublist {α : Type} {l₁ l₂ : List α} (h : List.Sublist l₁ l₂)
    (r : α → Bool) : (l₁.filter r).length ≤ (l₂.filter r).length :=
  (h.filter r).length_le

/-! ### C7: createLike failure cases -/

/-- C7: `createLike` fails with NotFound when `post_id` references no
existing Post, fails with Conflict when a Like with the same
(post_id, user_id) pair already exists, and in either failure case leaves
the store unchanged (in particular likes_count is unchanged). -/
theorem createLike_failure_cases (db : DB) (i : CreateLikeInput) :
    ((∀ p ∈ db.posts, p.id ≠ i.post_id) →
      createLike i db = (Except.error (HandlerError.notFound "Post does not exist"), db))
    ∧ ((∃ p ∈ db.posts, p.id = i.post_id) →
       (∃ l ∈ db.likes, l.post_id = i.post_id ∧ l.user_id = i.user_id) →
      createLike i db =
        (Except.error (HandlerError.conflict "User has already liked this post"), db)) := by
  constructor
  · intro h
    have hf : db.posts.filter (fun p => p.id == i.post_id) = [] := by
      rw [List.filter_eq_nil_iff]
      intro p hp
      simpa using h p hp
    simp [createLike, hf]
  · rintro ⟨p, hp, hpid⟩ ⟨l, hl, hl1, hl2⟩
    cases hf : db.posts.filter (fun q => q.id == i.post_id) with
    | nil =>
      exfalso
      have : p ∈ db.posts.filter (fun q => q.id == i.post_id) :=
        List.mem_filter.mpr ⟨hp, by simp [hpid]⟩
      rw [hf] at this
      cases this
    | cons q t =>
      have hne : (db.likes.filter
          (fun m => m.post_id == i.post_id && m.user_id == i.user_id)).isEmpty = false := by
        have : l ∈ db.likes.filter
            (fun m => m.post_id == i.post_id && m.user_id == i.user_id) :=
          List.mem_filter.mpr ⟨hl, by simp [hl1, hl2]⟩
        cases hemp : (db.likes.filter
            (fun m => m.post_id == i.post_id && m.user_id == i.user_id)).isEmpty with
        | false => rfl
        | true =>
          rw [List.isEmpty_iff] at hemp
          rw [hemp] at this
          cases this
      simp [createLike, hf, hne]

/-- C7 witness: both failure branches exercised on concrete stores. -/
theorem createLike_failure_cases_witness :
    ((∀ p ∈ (DB.empty).posts, p.id ≠ (1 : Nat)) ∧
      createLike ⟨1, 1⟩ DB.empty =
        (Except.error (HandlerError.notFound "Post does not exist"), DB.empty)) ∧
    (createLike ⟨1, 7⟩
        { DB.empty with
          posts := [⟨1, "t", "c", none, none, PostType.text, 1, 1, 0, false, 0, 0⟩]
          likes := [⟨1, 1, 7, 0⟩] } =
      (Except.error (HandlerError.conflict "User has already liked this post"),
        { DB.empty with
          posts := [⟨1, "t", "c", none, none, PostType.text, 1, 1, 0, false, 0, 0⟩]
          likes := [⟨1, 1, 7, 0⟩] })) :=
  ⟨⟨by decide, (createLike_failure_cases DB.empty ⟨1, 1⟩).1 (by decide)⟩,
    (createLike_failure_cases
      { DB.empty with
        posts := [⟨1, "t", "c", none, none, PostType.text, 1, 1, 0, false, 0, 0⟩]
        likes := [⟨1, 1, 7, 0⟩] } ⟨1, 7⟩).2
      ⟨⟨1, "t", "c", none, none, PostType.text, 1, 1, 0, false, 0, 0⟩, by decide, by decide⟩
      ⟨⟨1, 1, 7, 0⟩, by decide, by decide⟩⟩

/-! ### C10: createLike has no user existence check -/

/-- C10: for an input whose post exists and whose (post_id, user_id) pair
has no Like yet, `createLike`'s own logic raises neither NotFound nor
Conflict even when user_id references no User: it proceeds to the insert
and succeeds, so a failure for a missing user could only come from the
store's foreign-key constraint. -/
theorem createLike_no_user_check (db : DB) (i : CreateLikeInput)
    (hpost : ∃ p ∈ db.posts, p.id = i.post_id)
    (hnolike : ∀ l ∈ db.likes, ¬(l.post_id = i.post_id ∧ l.user_id = i.user_id))
    (hnouser : ∀ u ∈ db.users, u.id ≠ i.user_id) :
    ∃ row, (createLike i db).1 = Except.ok row ∧
      row.user_id = i.user_id ∧ row.post_id = i.post_id ∧
      row ∈ (createLike i db).2.likes := by
  obtain ⟨p, hp, hpid⟩ := hpost
  cases hf : db.posts.filter (fun q => q.id == i.post_id) with
  | nil =>
    exfalso
    have : p ∈ db.posts.filter (fun q => q.id == i.post_id) :=
      List.mem_filter.mpr ⟨hp, by simp [hpid]⟩
    rw [hf] at this
    cases this
  | cons q t =>
    have hemp : (db.likes.filter
        (fun m => m.post_id == i.post_id && m.user_id == i.user_id)).isEmpty = true := by
      rw [List.isEmpty_iff, List.filter_eq_nil_iff]
      intro l hl
      have := hnolike l hl
      simp only [Bool.and_eq_true, beq_iff_eq]
      tauto
    refine ⟨{ id := db.next_like_id, post_id := i.post_id
              user_id := i.user_id, created_at := db.now }, ?_, rfl, rfl, ?_⟩
    · simp [createLike, hf, hemp]
    · simp [createLike, hf, hemp]

/-- C10 witness: a store with one post, no users at all, no likes. -/
theorem createLike_no_user_check_witness :
    ∃ row, (createLike ⟨1, 5⟩
        { DB.empty with
          posts := [⟨1, "t", "c", none, none, PostType.text, 1, 0, 0, false, 0, 0⟩] }).1
        = Except.ok row ∧
      row.user_id = 5 ∧ row.post_id = 1 ∧
      row ∈ (createLike ⟨1, 5⟩
        { DB.empty with
          posts := [⟨1, "t", "c", none, none, PostType.text, 1, 0, 0, false, 0, 0⟩] }).2.likes :=
  createLike_no_user_check
    { DB.empty with
      posts := [⟨1, "t", "c", none, none, PostType.text, 1, 0, 0, false, 0, 0⟩] }
    ⟨1, 5⟩
    ⟨⟨1, "t", "c", none, none, PostType.text, 1, 0, 0, false, 0, 0⟩, by decide, by decide⟩
    (by decide) (by decide)

/-! ### C6: removeLike is idempotent -/

/-- Branch lemma: with no matching like in the store, `removeLike` returns
success and the store untouched. -/
lemma removeLike_miss (db : DB) (i : RemoveLikeInput)
    (hemp : (db.likes.filter
      (fun m => m.post_id == i.post_id && m.user_id == i.user_id)).isEmpty = true) :
    removeLike i db = (Except.ok true, db) := by
  unfold removeLike
  split
  · rfl
  · next hcond => exact absurd hemp hcond

/-- Branch lemma: with a matching like present, `removeLike` filters the
matching likes out and applies the unfloored decrement with a refreshed
updated_at to the posts with the given id. -/
lemma removeLike_hit (db : DB) (i : RemoveLikeInput)
    (hemp : (db.likes.filter
      (fun m => m.post_id == i.post_id && m.user_id == i.user_id)).isEmpty = false) :
    removeLike i db = (Except.ok true,
      { db with
        likes := (db.likes.filter
          (fun m => !(m.post_id == i.post_id && m.user_id == i.user_id)))
        posts := db.posts.map (fun q =>
          if q.id == i.post_id then
            { q with likes_count := q.likes_count - 1, updated_at := db.now }
          else q) }) := by
  unfold removeLike
  split
  · next hcond => rw [hemp] at hcond; exact Bool.noConfusion hcond
  · rfl

/-- C6: `removeLike` is idempotent: with no matching Like it returns
success and leaves the store untouched; with a matching Like it returns
success, removes it, sets the Post's likes_count to its previous value
minus one and refreshes updated_at; it always succeeds, and applying it a
second time with the same pair leaves the state of the first application
unchanged, so the counter is decremented only once relative to its value
before the first call. -/
theorem removeLike_idempotent (db : DB) (i : RemoveLikeInput) :
    ((∀ l ∈ db.likes, ¬(l.post_id = i.post_id ∧ l.user_id = i.user_id)) →
      removeLike i db = (Except.ok true, db))
    ∧ ((removeLike i db).1 = Except.ok true)
    ∧ (∀ p ∈ db.posts, p.id = i.post_id →
       (∃ l ∈ db.likes, l.post_id = i.post_id ∧ l.user_id = i.user_id) →
       { p with likes_count := p.likes_count - 1, updated_at := db.now }
         ∈ (removeLike i db).2.posts)
    ∧ (removeLike i (removeLike i db).2 = (Except.ok true, (removeLike i db).2)) := by
  refine ⟨?_, ?_, ?_, ?_⟩
  · intro h
    have hemp : (db.likes.filter
        (fun m => m.post_id == i.post_id && m.user_id == i.user_id)).isEmpty = true := by
      rw [List.isEmpty_iff, List.filter_eq_nil_iff]
      intro l hl
      have := h l hl
      simp only [Bool.and_eq_true, beq_iff_eq]
      tauto
    exact removeLike_miss db i hemp
  · cases hemp : (db.likes.filter
        (fun m => m.post_id == i.post_id && m.user_id == i.user_id)).isEmpty with
    | true => rw [removeLike_miss db i hemp]
    | false => rw [removeLike_hit db i hemp]
  · rintro p hp hpid ⟨l, hl, hl1, hl2⟩
    have hemp : (db.likes.filter
        (fun m => m.post_id == i.post_id && m.user_id == i.user_id)).isEmpty = false := by
      cases hemp : (db.likes.filter
          (fun m => m.post_id == i.post_id && m.user_id == i.user_id)).isEmpty with
      | false => rfl
      | true =>
        rw [List.isEmpty_iff] at hemp
        have : l ∈ db.likes.filter
            (fun m => m.post_id == i.post_id && m.user_id == i.user_id) :=
          List.mem_filter.mpr ⟨hl, by simp [hl1, hl2]⟩
        rw [hemp] at this
        cases this
    rw [removeLike_hit db i hemp]
    refine List.mem_map.mpr ⟨p, hp, ?_⟩
    rw [if_pos (show (p.id == i.post_id) = true by simp [hpid])]
  · cases hemp : (db.likes.filter
        (fun m => m.post_id == i.post_id && m.user_id == i.user_id)).isEmpty with
    | true =>
      rw [removeLike_miss db i hemp]
      exact removeLike_miss db i hemp
    | false =>
      rw [removeLike_hit db i hemp]
      refine removeLike_miss _ i ?_
      rw [List.isEmpty_iff, List.filter_eq_nil_iff]
      intro m hm
      have := (List.mem_filter.mp hm).2
      simp only [Bool.not_eq_eq_eq_not, Bool.not_true, Bool.and_eq_true, beq_iff_eq] at this ⊢
      rintro ⟨h1, h2⟩
      simp [h1, h2] at this

/-- Concrete store for the C6 witness: one post (likes_count 1) and one
matching like. -/
def exDbC6 : DB :=
  { users := [], posts := [⟨1, "t", "c", none, none, PostType.text, 1, 1, 0, false, 0, 0⟩]
    comments := [], likes := [⟨1, 1, 7, 0⟩]
    next_user_id := 1, next_post_id := 2, next_comment_id := 1
    next_like_id := 2, now := 4 }

/-- C6 witness: at the concrete store, the matching post is decremented by
one with updated_at refreshed, and the second call is the identity on the
state of the first. -/
theorem removeLike_idempotent_witness :
    ({ (⟨1, "t", "c", none, none, PostType.text, 1, 1, 0, false, 0, 0⟩ : PostRow) with
        likes_count := (1 : Int) - 1, updated_at := 4 }
      ∈ (removeLike ⟨1, 7⟩ exDbC6).2.posts) ∧
    removeLike ⟨1, 7⟩ (removeLike ⟨1, 7⟩ exDbC6).2 =
      (Except.ok true, (removeLike ⟨1, 7⟩ exDbC6).2) :=
  ⟨(removeLike_idempotent exDbC6 ⟨1, 7⟩).2.2.1
      ⟨1, "t", "c", none, none, PostType.text, 1, 1, 0, false, 0, 0⟩
      (by decide) (by decide) ⟨⟨1, 1, 7, 0⟩, by decide, by decide⟩,
    (removeLike_idempotent exDbC6 ⟨1, 7⟩).2.2.2⟩

/-! ### C8: createPost -/

/-- C8: `createPost` fails with NotFound when author_id references no
existing User, fails with PermissionDenied when the type is announcement
and the author's role is not admin (both failures leave the store
unchanged), and on success persists and returns a Post with likes_count 0
and comments_count 0, where is_pinned defaults to false when the input
omits it. -/
theorem createPost_spec (db : DB) (i : CreatePostInput) :
    ((∀ u ∈ db.users, u.id ≠ i.author_id) →
      createPost i db = (Except.error (HandlerError.notFound "Author not found"), db))
    ∧ (∀ a rest, db.users.filter (fun u => u.id == i.author_id) = a :: rest →
        i.type = PostType.announcement → a.role ≠ Role.admin →
      createPost i db =
        (Except.error (HandlerError.permissionDenied "Only admin users can create announcements"), db))
    ∧ (∀ a rest, db.users.filter (fun u => u.id == i.author_id) = a :: rest →
        ¬(i.type = PostType.announcement ∧ a.role ≠ Role.admin) →
      ∃ row, (createPost i db).1 = Except.ok row ∧
        row.likes_count = 0 ∧ row.comments_count = 0 ∧
        row.is_pinned = i.is_pinned.getD false ∧
        (i.is_pinned = none → row.is_pinned = false) ∧
        (createPost i db).2 =
          { db with posts := db.posts ++ [row], next_post_id := db.next_post_id + 1 }) := by
  refine ⟨?_, ?_, ?_⟩
  · intro h
    have hf : db.users.filter (fun u => u.id == i.author_id) = [] := by
      rw [List.filter_eq_nil_iff]
      intro u hu
      simpa using h u hu
    simp [createPost, hf]
  · intro a rest hf ht hr
    rw [createPost, hf]
    simp only [if_pos (And.intro ht hr)]
  · intro a rest hf hc
    refine ⟨{ id := db.next_post_id, title := i.title, content := i.content
              media_url := i.media_url, media_type := i.media_type
              type := i.type, author_id := i.author_id
              likes_count := 0, comments_count := 0
              is_pinned := i.is_pinned.getD false
              created_at := db.now, updated_at := db.now }, ?_, rfl, rfl, rfl, ?_, ?_⟩
    · rw [createPost, hf]
      simp only [if_neg hc]
    · intro hnone
      simp [hnone]
    · rw [createPost, hf]
      simp only [if_neg hc]

/-- C8 witness: a store with a student user 1 and an admin user 2
exercises all three branches at the theorem's concrete inputs. -/
theorem createPost_spec_witness :
    createPost ⟨"t", "c", none, none, PostType.text, 9, none⟩ DB.empty =
      (Except.error (HandlerError.notFound "Author not found"), DB.empty) ∧
    createPost ⟨"t", "c", none, none, PostType.announcement, 1, none⟩
        { DB.empty with
          users := [⟨1, "a", "a@x", "A", "C", none, Role.student, true, 0, 0⟩] } =
      (Except.error (HandlerError.permissionDenied "Only admin users can create announcements"),
        { DB.empty with
          users := [⟨1, "a", "a@x", "A", "C", none, Role.student, true, 0, 0⟩] }) ∧
    ∃ row, (createPost ⟨"t", "c", none, none, PostType.announcement, 1, none⟩
        { DB.empty with
          users := [⟨1, "a", "a@x", "A", "C", none, Role.admin, true, 0, 0⟩] }).1
        = Except.ok row ∧
      row.likes_count = 0 ∧ row.comments_count = 0 ∧ row.is_pinned = false := by
  refine ⟨?_, ?_, ?_⟩
  · exact (createPost_spec DB.empty ⟨"t", "c", none, none, PostType.text, 9, none⟩).1
      (by decide)
  · exact (createPost_spec
      { DB.empty with
        users := [⟨1, "a", "a@x", "A", "C", none, Role.student, true, 0, 0⟩] }
      ⟨"t", "c", none, none, PostType.announcement, 1, none⟩).2.1
      ⟨1, "a", "a@x", "A", "C", none, Role.student, true, 0, 0⟩ [] (by decide)
      rfl (by decide)
  · obtain ⟨row, h1, h2, h3, h4, h5, h6⟩ := (createPost_spec
      { DB.empty with
        users := [⟨1, "a", "a@x", "A", "C", none, Role.admin, true, 0, 0⟩] }
      ⟨"t", "c", none, none, PostType.announcement, 1, none⟩).2.2
      ⟨1, "a", "a@x", "A", "C", none, Role.admin, true, 0, 0⟩ [] (by decide)
      (by decide)
    exact ⟨row, h1, h2, h3, h5 rfl⟩

/-! ### C4: createUser (modelled from the spec) -/

/-- C4: `createUser` fails with a UniquenessViolation whenever the given
username or email already belongs to an existing User (leaving the store
unchanged), and on success returns a new User with is_active = true and
created_at/updated_at set to the creation time.  (The handler is modelled
from the spec because `create_user.ts` is a placeholder stub.) -/
theorem createUser_spec (db : DB) (i : CreateUserInput) :
    ((∃ u ∈ db.users, u.username = i.username ∨ u.email = i.email) →
      createUser i db =
        (Except.error (HandlerError.uniquenessViolation "Username or email already exists"), db))
    ∧ ((∀ u ∈ db.users, u.username ≠ i.username ∧ u.email ≠ i.email) →
      ∃ row, (createUser i db).1 = Except.ok row ∧
        row.is_active = true ∧ row.created_at = db.now ∧ row.updated_at = db.now ∧
        (createUser i db).2 =
          { db with users := db.users ++ [row], next_user_id := db.next_user_id + 1 }) := by
  constructor
  · rintro ⟨u, hu, hcol⟩
    have hne : (db.users.filter
        (fun v => v.username == i.username || v.email == i.email)).isEmpty = false := by
      cases hemp : (db.users.filter
          (fun v => v.username == i.username || v.email == i.email)).isEmpty with
      | false => rfl
      | true =>
        rw [List.isEmpty_iff] at hemp
        have : u ∈ db.users.filter
            (fun v => v.username == i.username || v.email == i.email) :=
          List.mem_filter.mpr ⟨hu, by
            rcases hcol with h | h <;> simp [h]⟩
        rw [hemp] at this
        cases this
    simp [createUser, hne]
  · intro h
    have hemp : (db.users.filter
        (fun v => v.username == i.username || v.email == i.email)).isEmpty = true := by
      rw [List.isEmpty_iff, List.filter_eq_nil_iff]
      intro u hu
      have := h u hu
      simp only [Bool.or_eq_true, beq_iff_eq]
      tauto
    refine ⟨{ id := db.next_user_id, username := i.username, email := i.email
              name := i.name, class_name := i.class_name
              profile_picture_url := i.profile_picture_url
              role := i.role.getD Role.student, is_active := true
              created_at := db.now, updated_at := db.now }, ?_, rfl, rfl, rfl, ?_⟩
    · simp [createUser, hemp]
    · simp [createUser, hemp]

/-- C4 witness: a duplicate username is rejected; a fresh user is created
with is_active and creation timestamps. -/
theorem createUser_spec_witness :
    createUser ⟨"a", "new@x", "N", "C", none, none⟩
        { DB.empty with
          users := [⟨1, "a", "a@x", "A", "C", none, Role.student, true, 0, 0⟩]
          next_user_id := 2, now := 3 } =
      (Except.error (HandlerError.uniquenessViolation "Username or email already exists"),
        { DB.empty with
          users := [⟨1, "a", "a@x", "A", "C", none, Role.student, true, 0, 0⟩]
          next_user_id := 2, now := 3 }) ∧
    ∃ row, (createUser ⟨"b", "b@x", "B", "C", none, none⟩
        { DB.empty with
          users := [⟨1, "a", "a@x", "A", "C", none, Role.student, true, 0, 0⟩]
          next_user_id := 2, now := 3 }).1 = Except.ok row ∧
      row.is_active = true ∧ row.created_at = 3 ∧ row.updated_at = 3 := by
  constructor
  · exact (createUser_spec
      { DB.empty with
        users := [⟨1, "a", "a@x", "A", "C", none, Role.student, true, 0, 0⟩]
        next_user_id := 2, now := 3 } ⟨"a", "new@x", "N", "C", none, none⟩).1
      ⟨⟨1, "a", "a@x", "A", "C", none, Role.student, true, 0, 0⟩, by decide, Or.inl rfl⟩
  · obtain ⟨row, h1, h2, h3, h4, h5⟩ := (createUser_spec
      { DB.empty with
        users := [⟨1, "a", "a@x", "A", "C", none, Role.student, true, 0, 0⟩]
        next_user_id := 2, now := 3 } ⟨"b", "b@x", "B", "C", none, none⟩).2
      (by decide)
    exact ⟨row, h1, h2, h3, h4⟩

/-! ### Counterexamples: C1, C2, C3 -/

/-- Handler sequence refuting the global counter invariant: two users, a
post by user 1, a comment by user 2, then deleteUser of user 2. -/
def exCallsC1 : List HCall :=
  [ HCall.cUser ⟨"a", "a@x", "A", "C", none, some Role.admin⟩
  , HCall.cUser ⟨"b", "b@x", "B", "C", none, none⟩
  , HCall.cPost ⟨"t", "c", none, none, PostType.text, 1, none⟩
  , HCall.cComment ⟨"hi", 1, 2⟩
  , HCall.dUser ⟨2⟩ ]

/-- C1 counterexample: after the handler sequence `exCallsC1` (whose every
invocation completes), the surviving post stores comments_count 1 while
zero Comment rows reference it, so the claimed invariant fails. -/
theorem counters_diverge_after_deleteUser :
    countersExactB (runCalls exCallsC1 DB.empty) = false ∧
    ∃ p ∈ (runCalls exCallsC1 DB.empty).posts,
      p.comments_count = 1 ∧ commentCount (runCalls exCallsC1 DB.empty).comments p.id = 0 := by
  constructor
  · rfl
  · decide

/-- Handler sequence for the C2 counterexample: user 2 likes user 1's
post, then user 2 is deleted. -/
def exCallsC2 : List HCall :=
  [ HCall.cUser ⟨"a", "a@x", "A", "C", none, some Role.admin⟩
  , HCall.cUser ⟨"b", "b@x", "B", "C", none, none⟩
  , HCall.cPost ⟨"t", "c", none, none, PostType.text, 1, none⟩
  , HCall.cLike ⟨1, 2⟩
  , HCall.dUser ⟨2⟩ ]

/-- C2 counterexample: deleting user 2, who only liked user 1's post,
removes the Like row but leaves the surviving post's likes_count at 1 with
zero remaining Like rows — the counters are not adjusted to the remaining
child-row counts. -/
theorem deleteUser_stale_counter_on_surviving_post :
    ∃ p ∈ (runCalls exCallsC2 DB.empty).posts,
      p.likes_count = 1 ∧ likeCount (runCalls exCallsC2 DB.empty).likes p.id = 0 := by
  decide

/-- A store whose single post has likes_count 0 while a matching Like row
exists (such a state is not handler-reachable, so the claimed flooring is
the only thing at issue). -/
def exDbC3 : DB :=
  { users := [], posts := [⟨1, "t", "c", none, none, PostType.text, 1, 0, 0, false, 0, 0⟩]
    comments := [], likes := [⟨1, 1, 7, 0⟩]
    next_user_id := 1, next_post_id := 2, next_comment_id := 1
    next_like_id := 2, now := 5 }

/-- C3 counterexample: `removeLike` does not floor the decrement at zero:
applied to a store whose post has likes_count 0 and a matching Like row,
it drives likes_count to -1. -/
theorem removeLike_does_not_floor :
    ∃ p ∈ (removeLike ⟨1, 7⟩ exDbC3).2.posts, p.likes_count = -1 := by
  decide

/-! ### C9: atomicity on failure -/

lemma map_error_inv {α β : Type} {x : Except HandlerError α} {f : α → β}
    {e : HandlerError} (h : x.map f = Except.error e) : x = Except.error e := by
  cases x with
  | ok v => simp [Except.map] at h
  | error e2 => simpa [Except.map] using h

lemma createUser_error_unchanged (i : CreateUserInput) (db : DB) (e : HandlerError) :
    (createUser i db).1 = Except.error e → (createUser i db).2 = db := by
  unfold createUser
  split
  · intro h; simp at h
  · intro _; rfl

lemma updateUser_error_unchanged (i : UpdateUserInput) (db : DB) (e : HandlerError) :
    (updateUser i db).1 = Except.error e → (updateUser i db).2 = db := by
  unfold updateUser
  split
  · intro _; rfl
  · intro h; simp at h

lemma deleteUser_error_unchanged (i : DeleteInput) (db : DB) (e : HandlerError) :
    (deleteUser i db).1 = Except.error e → (deleteUser i db).2 = db := by
  unfold deleteUser
  split
  · intro _; rfl
  · intro h; simp at h

lemma createPost_error_unchanged (i : CreatePostInput) (db : DB) (e : HandlerError) :
    (createPost i db).1 = Except.error e → (createPost i db).2 = db := by
  unfold createPost
  split
  · intro _; rfl
  · split
    · intro _; rfl
    · intro h; simp at h

lemma updatePost_error_unchanged (i : UpdatePostInput) (db : DB) (e : HandlerError) :
    (updatePost i db).1 = Except.error e → (updatePost i db).2 = db := by
  unfold updatePost
  split
  · intro _; rfl
  · intro h; simp at h

lemma deletePost_error_unchanged (i : DeleteInput) (db : DB) (e : HandlerError) :
    (deletePost i db).1 = Except.error e → (deletePost i db).2 = db := by
  unfold deletePost
  split
  · intro _; rfl
  · intro h; simp at h

lemma createComment_error_unchanged (i : CreateCommentInput) (db : DB) (e : HandlerError) :
    (createComment i db).1 = Except.error e → (createComment i db).2 = db := by
  unfold createComment
  split
  · intro _; rfl
  · split
    · intro _; rfl
    · intro h; simp at h

lemma updateComment_error_unchanged (i : UpdateCommentInput) (db : DB) (e : HandlerError) :
    (updateComment i db).1 = Except.error e → (updateComment i db).2 = db := by
  unfold updateComment
  split
  · next heq =>
    intro _
    have hnil : db.comments.filter (fun c => c.id == i.id) = [] := by
      rcases hf : db.comments.filter (fun c => c.id == i.id) with _ | ⟨c, t⟩
      · exact hf
      · rw [hf] at heq
        simp at heq
    have hno : ∀ c ∈ db.comments, ¬((c.id == i.id) = true) := by
      rw [List.filter_eq_nil_iff] at hnil
      exact hnil
    show { db with comments := db.comments.map (fun c =>
      if c.id == i.id then
        { c with content := i.content, updated_at := db.now }
      else c) } = db
    have hmap : db.comments.map (fun c =>
        if c.id == i.id then
          { c with content := i.content, updated_at := db.now }
        else c) = db.comments := by
      rw [List.map_congr_left (fun c hc => if_neg (hno c hc)), List.map_id']
    rw [hmap]
  · intro h
    simp at h

lemma deleteComment_error_unchanged (i : DeleteInput) (db : DB) (e : HandlerError) :
    (deleteComment i db).1 = Except.error e → (deleteComment i db).2 = db := by
  unfold deleteComment
  split
  · intro _; rfl
  · split
    · intro _; rfl
    · intro h; simp at h

lemma createLike_error_unchanged (i : CreateLikeInput) (db : DB) (e : HandlerError) :
    (createLike i db).1 = Except.error e → (createLike i db).2 = db := by
  unfold createLike
  split
  · intro _; rfl
  · split
    · intro h; simp at h
    · intro _; rfl

lemma removeLike_error_unchanged (i : RemoveLikeInput) (db : DB) (e : HandlerError) :
    (removeLike i db).1 = Except.error e → (removeLike i db).2 = db := by
  unfold removeLike
  split
  · intro h; simp at h
  · intro h; simp at h

/-- C9: every handler is atomic on failure — a failing invocation of any
store-mutating procedure leaves the store unchanged; in particular a
`createComment` that passes the post check but fails the author-existence
check returns NotFound without inserting the comment or touching the
post. -/
theorem handlers_atomic_on_failure :
    (∀ (c : HCall) (db : DB) (e : HandlerError),
      (runCall c db).1 = Except.error e → (runCall c db).2 = db)
    ∧ (∀ (db : DB) (i : CreateCommentInput),
      (∃ p ∈ db.posts, p.id = i.post_id) →
      (∀ u ∈ db.users, u.id ≠ i.author_id) →
      createComment i db = (Except.error (HandlerError.notFound "User not found"), db)) := by
  constructor
  · intro c db e h
    cases c with
    | cUser i =>
      simp only [runCall] at h ⊢
      exact createUser_error_unchanged i db e (map_error_inv h)
    | uUser i =>
      simp only [runCall] at h ⊢
      exact updateUser_error_unchanged i db e (map_error_inv h)
    | dUser i =>
      simp only [runCall] at h ⊢
      exact deleteUser_error_unchanged i db e (map_error_inv h)
    | cPost i =>
      simp only [runCall] at h ⊢
      exact createPost_error_unchanged i db e (map_error_inv h)
    | uPost i =>
      simp only [runCall] at h ⊢
      exact updatePost_error_unchanged i db e (map_error_inv h)
    | dPost i =>
      simp only [runCall] at h ⊢
      exact deletePost_error_unchanged i db e (map_error_inv h)
    | cComment i =>
      simp only [runCall] at h ⊢
      exact createComment_error_unchanged i db e (map_error_inv h)
    | uComment i =>
      simp only [runCall] at h ⊢
      exact updateComment_error_unchanged i db e (map_error_inv h)
    | dComment i =>
      simp only [runCall] at h ⊢
      exact deleteComment_error_unchanged i db e (map_error_inv h)
    | cLike i =>
      simp only [runCall] at h ⊢
      exact createLike_error_unchanged i db e (map_error_inv h)
    | rLike i =>
      simp only [runCall] at h ⊢
      exact removeLike_error_unchanged i db e (map_error_inv h)
  · rintro db i ⟨p, hp, hpid⟩ hnouser
    cases hf : db.posts.filter (fun q => q.id == i.post_id) with
    | nil =>
      exfalso
      have : p ∈ db.posts.filter (fun q => q.id == i.post_id) :=
        List.mem_filter.mpr ⟨hp, by simp [hpid]⟩
      rw [hf] at this
      cases this
    | cons q t =>
      have hemp : (db.users.filter (fun u => u.id == i.author_id)).isEmpty = true := by
        rw [List.isEmpty_iff, List.filter_eq_nil_iff]
        intro u hu
        simpa using hnouser u hu
      unfold createComment
      rw [hf]
      simp only [hemp, if_true]

/-- A store with one post (by author 1) and no user with id 9, for the
C9 witness. -/
def exDbC9 : DB :=
  { users := [⟨1, "a", "a@x", "A", "C", none, Role.student, true, 0, 0⟩]
    posts := [⟨1, "t", "c", none, none, PostType.text, 1, 0, 0, false, 0, 0⟩]
    comments := [], likes := []
    next_user_id := 2, next_post_id := 2, next_comment_id := 1
    next_like_id := 1, now := 3 }

/-- C9 witness: a failing deleteUser on the empty store leaves it
unchanged, and a createComment with an existing post but missing author
fails without any mutation. -/
theorem handlers_atomic_on_failure_witness :
    ((runCall (HCall.dUser ⟨1⟩) DB.empty).1
        = Except.error (HandlerError.notFound "User not found") ∧
      (runCall (HCall.dUser ⟨1⟩) DB.empty).2 = DB.empty) ∧
    createComment ⟨"x", 1, 9⟩ exDbC9 =
      (Except.error (HandlerError.notFound "User not found"), exDbC9) :=
  ⟨⟨rfl,
    handlers_atomic_on_failure.1 (HCall.dUser ⟨1⟩) DB.empty
      (HandlerError.notFound "User not found") rfl⟩,
   handlers_atomic_on_failure.2 exDbC9 ⟨"x", 1, 9⟩
      ⟨⟨1, "t", "c", none, none, PostType.text, 1, 0, 0, false, 0, 0⟩, by decide, by decide⟩
      (by decide)⟩

/-! ### C2 (amended): deleteUser -/

/-- Branch lemma: the success path of `deleteUser` in closed form. -/
lemma deleteUser_hit (db : DB) (i : DeleteInput)
    (hne : (db.users.filter (fun u => u.id == i.id)).isEmpty = false) :
    deleteUser i db = (Except.ok true,
      { db with
        users := db.users.filter (fun u => !(u.id == i.id))
        posts := db.posts.filter (fun p => !(p.author_id == i.id))
        comments := ((db.comments.filter (fun c => !(c.author_id == i.id))).filter
          (fun c => !(((db.posts.filter (fun p => p.author_id == i.id)).map
            (fun p => p.id)).contains c.post_id)))
        likes := ((db.likes.filter (fun l => !(l.user_id == i.id))).filter
          (fun l => !(((db.posts.filter (fun p => p.author_id == i.id)).map
            (fun p => p.id)).contains l.post_id))) }) := by
  unfold deleteUser deletePostsWhere
  split
  · next hcond => rw [hne] at hcond; exact Bool.noConfusion hcond
  · rfl

/-- C2 (amended): `deleteUser` on an existing user removes all Posts
authored by the user (transitively removing those posts' Comments and
Likes), all Comments authored by the user on any post, all Likes made by
the user, and the user row itself; every surviving post keeps its row
completely unchanged — in particular its comments_count and likes_count
are NOT re-adjusted to the remaining child-row counts. -/
theorem deleteUser_spec (db : DB) (i : DeleteInput)
    (hu : ∃ u ∈ db.users, u.id = i.id) :
    (deleteUser i db).1 = Except.ok true
    ∧ (∀ u, u ∈ (deleteUser i db).2.users ↔ u ∈ db.users ∧ u.id ≠ i.id)
    ∧ (∀ p, p ∈ (deleteUser i db).2.posts ↔ p ∈ db.posts ∧ p.author_id ≠ i.id)
    ∧ (∀ c, c ∈ (deleteUser i db).2.comments ↔ c ∈ db.comments ∧ c.author_id ≠ i.id ∧
        ¬∃ p ∈ db.posts, p.author_id = i.id ∧ p.id = c.post_id)
    ∧ (∀ l, l ∈ (deleteUser i db).2.likes ↔ l ∈ db.likes ∧ l.user_id ≠ i.id ∧
        ¬∃ p ∈ db.posts, p.author_id = i.id ∧ p.id = l.post_id) := by
  obtain ⟨u, hu1, hu2⟩ := hu
  have hne : (db.users.filter (fun v => v.id == i.id)).isEmpty = false := by
    cases hemp : (db.users.filter (fun v => v.id == i.id)).isEmpty with
    | false => rfl
    | true =>
      rw [List.isEmpty_iff] at hemp
      have : u ∈ db.users.filter (fun v => v.id == i.id) :=
        List.mem_filter.mpr ⟨hu1, by simp [hu2]⟩
      rw [hemp] at this
      cases this
  rw [deleteUser_hit db i hne]
  refine ⟨rfl, ?_, ?_, ?_, ?_⟩
  · intro v
    simp [List.mem_filter]
  · intro p
    simp [List.mem_filter]
  · intro c
    simp only [List.mem_filter, List.contains_eq_any_beq, List.any_map, List.any_eq_true,
      Bool.not_eq_eq_eq_not, Bool.not_true, Bool.not_eq_true', beq_eq_false_iff_ne,
      ne_eq, List.any_eq_false, Function.comp, List.mem_map, beq_iff_eq]
    constructor
    · rintro ⟨⟨hc, ha⟩, hall⟩
      refine ⟨hc, ha, ?_⟩
      rintro ⟨p, hp, hpa, hpid⟩
      exact hall c.post_id ⟨p, ⟨hp, hpa⟩, hpid⟩ rfl
    · rintro ⟨hc, ha, hnp⟩
      refine ⟨⟨hc, ha⟩, ?_⟩
      rintro x ⟨p, ⟨hp, hpa⟩, hpid⟩ hcx
      exact hnp ⟨p, hp, hpa, by rw [hpid, ← hcx]⟩
  · intro l
    simp only [List.mem_filter, List.contains_eq_any_beq, List.any_map, List.any_eq_true,
      Bool.not_eq_eq_eq_not, Bool.not_true, Bool.not_eq_true', beq_eq_false_iff_ne,
      ne_eq, List.any_eq_false, Function.comp, List.mem_map, beq_iff_eq]
    constructor
    · rintro ⟨⟨hc, ha⟩, hall⟩
      refine ⟨hc, ha, ?_⟩
      rintro ⟨p, hp, hpa, hpid⟩
      exact hall l.post_id ⟨p, ⟨hp, hpa⟩, hpid⟩ rfl
    · rintro ⟨hc, ha, hnp⟩
      refine ⟨⟨hc, ha⟩, ?_⟩
      rintro x ⟨p, ⟨hp, hpa⟩, hpid⟩ hcx
      exact hnp ⟨p, hp, hpa, by rw [hpid, ← hcx]⟩

/-- Store for the C2 witness: user 1 authored post 1; user 2 commented on
and liked it. -/
def exDbC2 : DB :=
  { users := [⟨1, "a", "a@x", "A", "C", none, Role.student, true, 0, 0⟩,
              ⟨2, "b", "b@x", "B", "C", none, Role.student, true, 0, 0⟩]
    posts := [⟨1, "t", "c", none, none, PostType.text, 1, 1, 1, false, 0, 0⟩]
    comments := [⟨1, "hi", 1, 2, 0, 0⟩], likes := [⟨1, 1, 2, 0⟩]
    next_user_id := 3, next_post_id := 2, next_comment_id := 2
    next_like_id := 2, now := 6 }

/-- C2 witness: deleting user 1 (the author) on the concrete store removes
the post, its comment and its like; the remaining user row is intact. -/
theorem deleteUser_spec_witness :
    (deleteUser ⟨1⟩ exDbC2).1 = Except.ok true ∧
    ((⟨2, "b", "b@x", "B", "C", none, Role.student, true, 0, 0⟩ : UserRow)
        ∈ (deleteUser ⟨1⟩ exDbC2).2.users) ∧
    (∀ p, p ∈ (deleteUser ⟨1⟩ exDbC2).2.posts ↔ p ∈ exDbC2.posts ∧ p.author_id ≠ 1) ∧
    (¬(⟨1, "hi", 1, 2, 0, 0⟩ : CommentRow) ∈ (deleteUser ⟨1⟩ exDbC2).2.comments) := by
  have h := deleteUser_spec exDbC2 ⟨1⟩
    ⟨⟨1, "a", "a@x", "A", "C", none, Role.student, true, 0, 0⟩, by decide, by decide⟩
  refine ⟨h.1, ?_, h.2.2.1, ?_⟩
  · exact (h.2.1 ⟨2, "b", "b@x", "B", "C", none, Role.student, true, 0, 0⟩).mpr
      ⟨by decide, by decide⟩
  · intro hmem
    have := (h.2.2.2.1 ⟨1, "hi", 1, 2, 0, 0⟩).mp hmem
    exact this.2.2 ⟨⟨1, "t", "c", none, none, PostType.text, 1, 1, 1, false, 0, 0⟩,
      by decide, by decide, by decide⟩

/-! ### C5: deleteComment -/

/-- Branch lemma: no comment carries the requested id. -/
lemma deleteComment_miss (db : DB) (i : DeleteInput)
    (hf : db.comments.filter (fun c => c.id == i.id) = []) :
    deleteComment i db = (Except.error (HandlerError.notFound "Comment not found"), db) := by
  unfold deleteComment
  rw [hf]

/-- Branch lemma: the success path of `deleteComment` in closed form. -/
lemma deleteComment_hit (db : DB) (i : DeleteInput) (c : CommentRow) (rest : List CommentRow)
    (post : PostRow) (rest2 : List PostRow)
    (hf : db.comments.filter (fun d => d.id == i.id) = c :: rest)
    (hp : db.posts.filter (fun p => p.id == c.post_id) = post :: rest2) :
    deleteComment i db = (Except.ok true,
      { db with
        comments := db.comments.filter (fun d => !(d.id == i.id))
        posts := db.posts.map (fun q =>
          if q.id == c.post_id then
            { q with comments_count := max 0 (post.comments_count - 1), updated_at := db.now }
          else q) }) := by
  unfold deleteComment
  simp only [hf, hp]

/-- C5: `deleteComment` fails with NotFound "Comment not found" exactly
when no Comment with the given id exists (leaving the store unchanged);
when the Comment exists, under referential integrity (every Comment's
post_id references an existing Post) the secondary "Associated post not
found" branch is unreachable and the handler succeeds: it removes the
Comment, gives the parent Post comments_count decremented by one floored
at zero with a refreshed updated_at, and leaves every other post row
untouched. -/
theorem deleteComment_spec (db : DB) (i : DeleteInput)
    (hri : ∀ c ∈ db.comments, ∃ p ∈ db.posts, p.id = c.post_id)
    (hcn : (db.comments.map (fun c => c.id)).Nodup)
    (hpn : (db.posts.map (fun p => p.id)).Nodup) :
    ((∀ c ∈ db.comments, c.id ≠ i.id) →
      deleteComment i db = (Except.error (HandlerError.notFound "Comment not found"), db))
    ∧ (∀ c ∈ db.comments, c.id = i.id →
        (deleteComment i db).1 = Except.ok true ∧
        (deleteComment i db).2.comments = db.comments.filter (fun d => !(d.id == i.id)) ∧
        (∀ p ∈ db.posts, p.id = c.post_id →
          { p with comments_count := max 0 (p.comments_count - 1), updated_at := db.now }
            ∈ (deleteComment i db).2.posts) ∧
        (∀ p ∈ db.posts, p.id ≠ c.post_id → p ∈ (deleteComment i db).2.posts)) := by
  constructor
  · intro h
    refine deleteComment_miss db i ?_
    rw [List.filter_eq_nil_iff]
    intro c hc
    simpa using h c hc
  · intro c hc hcid
    obtain ⟨p0, hp0, hp0id⟩ := hri c hc
    have hf : db.comments.filter (fun d => d.id == i.id) = [c] :=
      filter_key_single (fun d => d.id) (fun d => d.id == i.id) i.id
        (fun d => by simp) hcn hc hcid
    have hp : db.posts.filter (fun p => p.id == c.post_id) = [p0] :=
      filter_key_single (fun p => p.id) (fun p => p.id == c.post_id) c.post_id
        (fun p => by simp) hpn hp0 hp0id
    rw [deleteComment_hit db i c [] p0 [] hf hp]
    refine ⟨rfl, rfl, ?_, ?_⟩
    · intro p hpmem hpid
      have hpp0 : p = p0 := by
        have : p ∈ db.posts.filter (fun q => q.id == c.post_id) :=
          List.mem_filter.mpr ⟨hpmem, by simp [hpid]⟩
        rw [hp] at this
        simpa using this
      refine List.mem_map.mpr ⟨p, hpmem, ?_⟩
      rw [if_pos (show (p.id == c.post_id) = true by simp [hpid]), hpp0]
    · intro p hpmem hpid
      refine List.mem_map.mpr ⟨p, hpmem, ?_⟩
      rw [if_neg (show ¬(p.id == c.post_id) = true by simp [hpid])]

/-- Store for the C5 witness: post 1 with two comments (ids 1 and 2),
comments_count 2. -/
def exDbC5 : DB :=
  { users := [⟨1, "a", "a@x", "A", "C", none, Role.student, true, 0, 0⟩]
    posts := [⟨1, "t", "c", none, none, PostType.text, 1, 0, 2, false, 0, 0⟩]
    comments := [⟨1, "one", 1, 1, 0, 0⟩, ⟨2, "two", 1, 1, 0, 0⟩], likes := []
    next_user_id := 2, next_post_id := 2, next_comment_id := 3
    next_like_id := 1, now := 9 }

/-- C5 witness: a missing id fails without mutation; deleting comment 1
removes it and decrements the parent post's counter with a refreshed
updated_at. -/
theorem deleteComment_spec_witness :
    deleteComment ⟨7⟩ exDbC5 =
      (Except.error (HandlerError.notFound "Comment not found"), exDbC5) ∧
    (deleteComment ⟨1⟩ exDbC5).1 = Except.ok true ∧
    ({ (⟨1, "t", "c", none, none, PostType.text, 1, 0, 2, false, 0, 0⟩ : PostRow) with
        comments_count := max 0 ((2 : Int) - 1), updated_at := 9 }
      ∈ (deleteComment ⟨1⟩ exDbC5).2.posts) := by
  have h7 := deleteComment_spec exDbC5 ⟨7⟩ (by decide) (by decide) (by decide)
  have h1 := deleteComment_spec exDbC5 ⟨1⟩ (by decide) (by decide) (by decide)
  have hb := h1.2 ⟨1, "one", 1, 1, 0, 0⟩ (by decide) (by decide)
  exact ⟨h7.1 (by decide), hb.1,
    hb.2.2.1 ⟨1, "t", "c", none, none, PostType.text, 1, 0, 2, false, 0, 0⟩
      (by decide) (by decide)⟩

/-! ### Counting lemmas for the counter invariants -/

lemma commentCount_append (cs : List CommentRow) (c : CommentRow) (pid : Nat) :
    commentCount (cs ++ [c]) pid
      = commentCount cs pid + (if c.post_id = pid then 1 else 0) := by
  unfold commentCount
  rw [List.filter_append]
  by_cases h : c.post_id = pid <;> simp [h]

lemma likeCount_append (ls : List LikeRow) (l : LikeRow) (pid : Nat) :
    likeCount (ls ++ [l]) pid
      = likeCount ls pid + (if l.post_id = pid then 1 else 0) := by
  unfold likeCount
  rw [List.filter_append]
  by_cases h : l.post_id = pid <;> simp [h]

lemma commentCount_eq_zero (cs : List CommentRow) (pid : Nat)
    (h : ∀ c ∈ cs, c.post_id ≠ pid) : commentCount cs pid = 0 := by
  unfold commentCount
  rw [List.length_eq_zero, List.filter_eq_nil_iff]
  intro c hc
  simpa using h c hc

lemma likeCount_eq_zero (ls : List LikeRow) (pid : Nat)
    (h : ∀ l ∈ ls, l.post_id ≠ pid) : likeCount ls pid = 0 := by
  unfold likeCount
  rw [List.length_eq_zero, List.filter_eq_nil_iff]
  intro l hl
  simpa using h l hl

lemma commentCount_remove (cs : List CommentRow) (i : Nat) (c : CommentRow)
    (hf : cs.filter (fun d => d.id == i) = [c]) (pid : Nat) :
    commentCount (cs.filter (fun d => !(d.id == i))) pid
      + (if c.post_id = pid then 1 else 0) = commentCount cs pid := by
  have hpart := length_filter_not_add cs (fun d => d.id == i) (fun d => d.post_id == pid)
  rw [hf] at hpart
  unfold commentCount
  by_cases h : c.post_id = pid <;> simpa [h] using hpart

lemma likeCount_remove_pair (ls : List LikeRow) (pid0 uid : Nat) (l0 : LikeRow)
    (hf : ls.filter (fun m => m.post_id == pid0 && m.user_id == uid) = [l0]) (pid : Nat) :
    likeCount (ls.filter (fun m => !(m.post_id == pid0 && m.user_id == uid))) pid
      + (if l0.post_id = pid then 1 else 0) = likeCount ls pid := by
  have hpart := length_filter_not_add ls
    (fun m => m.post_id == pid0 && m.user_id == uid) (fun m => m.post_id == pid)
  rw [hf] at hpart
  unfold likeCount
  by_cases h : l0.post_id = pid <;> simpa [h] using hpart

lemma likeCount_filter_le (ls : List LikeRow) (g : LikeRow → Bool) (pid : Nat) :
    likeCount (ls.filter g) pid ≤ likeCount ls pid :=
  length_filter_le_of_sublist (List.filter_sublist ls) (fun l => l.post_id == pid)

lemma commentCount_filter_le (cs : List CommentRow) (g : CommentRow → Bool) (pid : Nat) :
    commentCount (cs.filter g) pid ≤ commentCount cs pid :=
  length_filter_le_of_sublist (List.filter_sublist cs) (fun c => c.post_id == pid)

/-- Removing likes whose post_id differs from `pid` leaves the count for
`pid` unchanged; stated for removal by an exact (post_id, user_id) pair
with a different post_id. -/
lemma likeCount_remove_other (ls : List LikeRow) (pid0 uid : Nat) (pid : Nat)
    (hne : pid ≠ pid0) :
    likeCount (ls.filter (fun m => !(m.post_id == pid0 && m.user_id == uid))) pid
      = likeCount ls pid := by
  unfold likeCount
  rw [filter_not_filter_of_imp]
  intro l _ hl
  have : l.post_id = pid := by simpa using hl
  simp [this, hne]

/-! ### The reachability invariant for C3 (holds across every handler) -/

/-- Invariant preserved by every handler call, deleteUser included: post
ids and like post references stay below the posts serial, each post's
likes_count dominates the number of its Like rows, and comments_count is
non-negative.  (After a deleteUser the counters may exceed the child-row
counts, but never fall below zero.) -/
structure Wf (db : DB) : Prop where
  posts_lt : ∀ p ∈ db.posts, p.id < db.next_post_id
  likes_plt : ∀ l ∈ db.likes, l.post_id < db.next_post_id
  likes_le : ∀ p ∈ db.posts, (likeCount db.likes p.id : Int) ≤ p.likes_count
  cnonneg : ∀ p ∈ db.posts, 0 ≤ p.comments_count

lemma wf_empty : Wf DB.empty :=
  ⟨by simp [DB.empty], by simp [DB.empty], by simp [DB.empty], by simp [DB.empty]⟩

lemma wf_now (db : DB) (t : Nat) (h : Wf db) : Wf { db with now := t } :=
  ⟨h.posts_lt, h.likes_plt, h.likes_le, h.cnonneg⟩

lemma wf_createUser (i : CreateUserInput) (db : DB) (h : Wf db) :
    Wf (createUser i db).2 := by
  unfold createUser
  split
  · exact ⟨h.posts_lt, h.likes_plt, h.likes_le, h.cnonneg⟩
  · exact h

lemma wf_updateUser (i : UpdateUserInput) (db : DB) (h : Wf db) :
    Wf (updateUser i db).2 := by
  unfold updateUser
  split
  · exact h
  · exact ⟨h.posts_lt, h.likes_plt, h.likes_le, h.cnonneg⟩

lemma wf_updateComment (i : UpdateCommentInput) (db : DB) (h : Wf db) :
    Wf (updateComment i db).2 := by
  unfold updateComment
  split
  · exact ⟨h.posts_lt, h.likes_plt, h.likes_le, h.cnonneg⟩
  · exact ⟨h.posts_lt, h.likes_plt, h.likes_le, h.cnonneg⟩

lemma wf_createPost (i : CreatePostInput) (db : DB) (h : Wf db) :
    Wf (createPost i db).2 := by
  unfold createPost
  split
  · exact h
  · split
    · exact h
    · refine ⟨?_, ?_, ?_, ?_⟩
      · intro p hp
        rcases List.mem_append.mp hp with h1 | h1
        · exact Nat.lt_succ_of_lt (h.posts_lt p h1)
        · rw [List.mem_singleton.mp h1]
          exact Nat.lt_succ_self _
      · intro l hl
        exact Nat.lt_succ_of_lt (h.likes_plt l hl)
      · intro p hp
        rcases List.mem_append.mp hp with h1 | h1
        · exact h.likes_le p h1
        · rw [List.mem_singleton.mp h1]
          have h0 : likeCount db.likes db.next_post_id = 0 :=
            likeCount_eq_zero _ _ (fun l hl => Nat.ne_of_lt (h.likes_plt l hl))
          simp [h0]
      · intro p hp
        rcases List.mem_append.mp hp with h1 | h1
        · exact h.cnonneg p h1
        · rw [List.mem_singleton.mp h1]

lemma wf_updatePost (i : UpdatePostInput) (db : DB) (h : Wf db) :
    Wf (updatePost i db).2 := by
  unfold updatePost
  split
  · exact h
  · refine ⟨?_, h.likes_plt, ?_, ?_⟩
    · intro p' hp'
      obtain ⟨p, hp, hrw⟩ := List.mem_map.mp hp'
      subst hrw
      by_cases hc : (p.id == i.id) = true
      · rw [if_pos hc]; exact h.posts_lt p hp
      · rw [if_neg hc]; exact h.posts_lt p hp
    · intro p' hp'
      obtain ⟨p, hp, hrw⟩ := List.mem_map.mp hp'
      subst hrw
      by_cases hc : (p.id == i.id) = true
      · rw [if_pos hc]; exact h.likes_le p hp
      · rw [if_neg hc]; exact h.likes_le p hp
    · intro p' hp'
      obtain ⟨p, hp, hrw⟩ := List.mem_map.mp hp'
      subst hrw
      by_cases hc : (p.id == i.id) = true
      · rw [if_pos hc]; exact h.cnonneg p hp
      · rw [if_neg hc]; exact h.cnonneg p hp

lemma wf_deletePost (i : DeleteInput) (db : DB) (h : Wf db) :
    Wf (deletePost i db).2 := by
  unfold deletePost deletePostsWhere
  split
  · exact h
  · refine ⟨?_, ?_, ?_, ?_⟩
    · intro p hp
      exact h.posts_lt p (List.mem_filter.mp hp).1
    · intro l hl
      exact h.likes_plt l (List.mem_filter.mp hl).1
    · intro p hp
      have hple := h.likes_le p (List.mem_filter.mp hp).1
      refine le_trans ?_ hple
      exact_mod_cast likeCount_filter_le db.likes
        (fun l => !((List.map (fun p => p.id)
          (List.filter (fun p => p.id == i.id) db.posts)).contains l.post_id)) p.id
    · intro p hp
      exact h.cnonneg p (List.mem_filter.mp hp).1

lemma wf_deleteUser (i : DeleteInput) (db : DB) (h : Wf db) :
    Wf (deleteUser i db).2 := by
  unfold deleteUser deletePostsWhere
  split
  · exact h
  · refine ⟨?_, ?_, ?_, ?_⟩
    · intro p hp
      exact h.posts_lt p (List.mem_filter.mp hp).1
    · intro l hl
      exact h.likes_plt l (List.mem_filter.mp (List.mem_filter.mp hl).1).1
    · intro p hp
      have hple := h.likes_le p (List.mem_filter.mp hp).1
      refine le_trans ?_ hple
      exact_mod_cast le_trans
        (likeCount_filter_le (db.likes.filter (fun l => !(l.user_id == i.id)))
          (fun l => !((List.map (fun p => p.id) (List.filter
            (fun p => p.author_id == i.id) db.posts)).contains l.post_id)) p.id)
        (likeCount_filter_le db.likes (fun l => !(l.user_id == i.id)) p.id)
    · intro p hp
      exact h.cnonneg p (List.mem_filter.mp hp).1

lemma wf_createComment (i : CreateCommentInput) (db : DB) (h : Wf db) :
    Wf (createComment i db).2 := by
  unfold createComment
  split
  · exact h
  · next post t heq =>
    have hpost := head_filter_mem heq
    split
    · exact h
    · refine ⟨?_, h.likes_plt, ?_, ?_⟩
      · intro p' hp'
        obtain ⟨p, hp, hrw⟩ := List.mem_map.mp hp'
        subst hrw
        by_cases hc : (p.id == i.post_id) = true
        · rw [if_pos hc]; exact h.posts_lt p hp
        · rw [if_neg hc]; exact h.posts_lt p hp
      · intro p' hp'
        obtain ⟨p, hp, hrw⟩ := List.mem_map.mp hp'
        subst hrw
        by_cases hc : (p.id == i.post_id) = true
        · rw [if_pos hc]; exact h.likes_le p hp
        · rw [if_neg hc]; exact h.likes_le p hp
      · intro p' hp'
        obtain ⟨p, hp, hrw⟩ := List.mem_map.mp hp'
        subst hrw
        by_cases hc : (p.id == i.post_id) = true
        · rw [if_pos hc]
          have := h.cnonneg post hpost.1
          show (0 : Int) ≤ post.comments_count + 1
          omega
        · rw [if_neg hc]; exact h.cnonneg p hp

lemma wf_createLike (i : CreateLikeInput) (db : DB) (h : Wf db) :
    Wf (createLike i db).2 := by
  unfold createLike
  split
  · exact h
  · next post t heq =>
    have hpost := head_filter_mem heq
    have hpostid : post.id = i.post_id := by simpa using hpost.2
    split
    · refine ⟨?_, ?_, ?_, ?_⟩
      · intro p' hp'
        obtain ⟨p, hp, hrw⟩ := List.mem_map.mp hp'
        subst hrw
        by_cases hc : (p.id == i.post_id) = true
        · rw [if_pos hc]; exact h.posts_lt p hp
        · rw [if_neg hc]; exact h.posts_lt p hp
      · intro l hl
        rcases List.mem_append.mp hl with h1 | h1
        · exact h.likes_plt l h1
        · rw [List.mem_singleton.mp h1]
          show i.post_id < db.next_post_id
          rw [← hpostid]
          exact h.posts_lt post hpost.1
      · intro p' hp'
        obtain ⟨p, hp, hrw⟩ := List.mem_map.mp hp'
        subst hrw
        by_cases hc : (p.id == i.post_id) = true
        · rw [if_pos hc]
          have hpid : p.id = i.post_id := by simpa using hc
          have hcnt : likeCount (db.likes ++
              [{ id := db.next_like_id, post_id := i.post_id
                 user_id := i.user_id, created_at := db.now }]) p.id
              = likeCount db.likes p.id + 1 := by
            rw [likeCount_append]
            simp [hpid]
          have hle := h.likes_le post hpost.1
          have hsame : likeCount db.likes p.id = likeCount db.likes post.id := by
            rw [hpid, hpostid]
          show (likeCount _ p.id : Int) ≤ post.likes_count + 1
          rw [hcnt]
          push_cast
          omega
        · rw [if_neg hc]
          have hpid : p.id ≠ i.post_id := by simpa using hc
          have hcnt : likeCount (db.likes ++
              [{ id := db.next_like_id, post_id := i.post_id
                 user_id := i.user_id, created_at := db.now }]) p.id
              = likeCount db.likes p.id := by
            rw [likeCount_append]
            simp [Ne.symm hpid]
          rw [hcnt]
          exact h.likes_le p hp
      · intro p' hp'
        obtain ⟨p, hp, hrw⟩ := List.mem_map.mp hp'
        subst hrw
        by_cases hc : (p.id == i.post_id) = true
        · rw [if_pos hc]; exact h.cnonneg p hp
        · rw [if_neg hc]; exact h.cnonneg p hp
    · exact h

lemma wf_deleteComment (i : DeleteInput) (db : DB) (h : Wf db) :
    Wf (deleteComment i db).2 := by
  unfold deleteComment
  split
  · exact h
  · split
    · exact h
    · refine ⟨?_, h.likes_plt, ?_, ?_⟩
      · intro p' hp'
        obtain ⟨p, hp, hrw⟩ := List.mem_map.mp hp'
        subst hrw
        split
        · exact h.posts_lt p hp
        · exact h.posts_lt p hp
      · intro p' hp'
        obtain ⟨p, hp, hrw⟩ := List.mem_map.mp hp'
        subst hrw
        split
        · exact h.likes_le p hp
        · exact h.likes_le p hp
      · intro p' hp'
        obtain ⟨p, hp, hrw⟩ := List.mem_map.mp hp'
        subst hrw
        split
        · exact le_max_left 0 _
        · exact h.cnonneg p hp

lemma wf_removeLike (i : RemoveLikeInput) (db : DB) (h : Wf db) :
    Wf (removeLike i db).2 := by
  unfold removeLike
  split
  · exact h
  · next hcond =>
    have hne : db.likes.filter
        (fun m => m.post_id == i.post_id && m.user_id == i.user_id) ≠ [] := by
      intro hnil
      exact hcond (by rw [List.isEmpty_iff]; exact hnil)
    obtain ⟨l0, hl0⟩ := List.exists_mem_of_ne_nil _ hne
    have hl0m := List.mem_filter.mp hl0
    have hl0p : l0.post_id = i.post_id := by
      have := hl0m.2
      simp only [Bool.and_eq_true, beq_iff_eq] at this
      exact this.1
    refine ⟨?_, ?_, ?_, ?_⟩
    · intro p' hp'
      obtain ⟨p, hp, hrw⟩ := List.mem_map.mp hp'
      subst hrw
      split
      · exact h.posts_lt p hp
      · exact h.posts_lt p hp
    · intro l hl
      exact h.likes_plt l (List.mem_filter.mp hl).1
    · intro p' hp'
      obtain ⟨p, hp, hrw⟩ := List.mem_map.mp hp'
      subst hrw
      by_cases hc : (p.id == i.post_id) = true
      · rw [if_pos hc]
        have hpid : p.id = i.post_id := by simpa using hc
        have hle := h.likes_le p hp
        have hpart := length_filter_not_add db.likes
          (fun m => m.post_id == i.post_id && m.user_id == i.user_id)
          (fun m => m.post_id == p.id)
        have hm : l0 ∈ (db.likes.filter
            (fun m => m.post_id == i.post_id && m.user_id == i.user_id)).filter
            (fun m => m.post_id == p.id) :=
          List.mem_filter.mpr ⟨hl0, by simp [hl0p, hpid]⟩
        have hpos : 0 < ((db.likes.filter
            (fun m => m.post_id == i.post_id && m.user_id == i.user_id)).filter
            (fun m => m.post_id == p.id)).length := List.length_pos_of_mem hm
        show (likeCount (db.likes.filter
          (fun m => !(m.post_id == i.post_id && m.user_id == i.user_id))) p.id : Int)
            ≤ p.likes_count - 1
        unfold likeCount at hle ⊢
        omega
      · rw [if_neg hc]
        have hpid : p.id ≠ i.post_id := by simpa using hc
        have hcnt := likeCount_remove_other db.likes i.post_id i.user_id p.id hpid
        have hle := h.likes_le p hp
        rw [hcnt]
        exact hle
    · intro p' hp'
      obtain ⟨p, hp, hrw⟩ := List.mem_map.mp hp'
      subst hrw
      split
      · exact h.cnonneg p hp
      · exact h.cnonneg p hp

lemma wf_applyCall (c : HCall) (db : DB) (h : Wf db) : Wf (applyCall c db) := by
  cases c with
  | cUser i => exact wf_createUser i db h
  | uUser i => exact wf_updateUser i db h
  | dUser i => exact wf_deleteUser i db h
  | cPost i => exact wf_createPost i db h
  | uPost i => exact wf_updatePost i db h
  | dPost i => exact wf_deletePost i db h
  | cComment i => exact wf_createComment i db h
  | uComment i => exact wf_updateComment i db h
  | dComment i => exact wf_deleteComment i db h
  | cLike i => exact wf_createLike i db h
  | rLike i => exact wf_removeLike i db h

lemma wf_runCalls (calls : List HCall) (db : DB) (h : Wf db) :
    Wf (runCalls calls db) := by
  induction calls generalizing db with
  | nil => exact h
  | cons c cs ih =>
    exact ih _ (wf_now _ _ (wf_applyCall c db h))

/-- C3 (amended): on every handler-reachable store, every post's
comments_count and likes_count are non-negative.  deleteComment floors its
decrement at zero; removeLike does not floor, but it only decrements when
a matching Like row exists, and on reachable stores likes_count always
dominates the number of Like rows, so the decrement never underflows. -/
theorem counters_nonneg_reachable (calls : List HCall) :
    countersNonnegB (runCalls calls DB.empty) = true := by
  have h := wf_runCalls calls DB.empty wf_empty
  unfold countersNonnegB
  rw [List.all_eq_true]
  intro p hp
  have h1 := h.likes_le p hp
  have h2 := h.cnonneg p hp
  have h3 : (0 : Int) ≤ (likeCount (runCalls calls DB.empty).likes p.id : Int) := by
    positivity
  simp only [Bool.and_eq_true, decide_eq_true_eq]
  omega

/-! ### The exactness invariant for C1 (holds while deleteUser is not called) -/

lemma nodup_map_filter {α β : Type} (f : α → β) (g : α → Bool) {l : List α}
    (h : (l.map f).Nodup) : ((l.filter g).map f).Nodup :=
  List.Nodup.sublist (List.Sublist.map f (List.filter_sublist l)) h

/-- The spec §3 invariant together with the bookkeeping needed to keep it
inductive: serial bounds, distinct comment ids, distinct like pairs, and
both counters exactly equal to their child-row counts. -/
structure Inv (db : DB) : Prop where
  posts_lt : ∀ p ∈ db.posts, p.id < db.next_post_id
  comments_plt : ∀ c ∈ db.comments, c.post_id < db.next_post_id
  likes_plt : ∀ l ∈ db.likes, l.post_id < db.next_post_id
  comments_ilt : ∀ c ∈ db.comments, c.id < db.next_comment_id
  comments_nodup : (db.comments.map (fun c => c.id)).Nodup
  likes_nodup : (db.likes.map (fun l => (l.post_id, l.user_id))).Nodup
  comments_eq : ∀ p ∈ db.posts, p.comments_count = (commentCount db.comments p.id : Int)
  likes_eq : ∀ p ∈ db.posts, p.likes_count = (likeCount db.likes p.id : Int)

lemma inv_empty : Inv DB.empty := by
  refine ⟨?_, ?_, ?_, ?_, ?_, ?_, ?_, ?_⟩ <;> simp [DB.empty]

lemma inv_now (db : DB) (t : Nat) (h : Inv db) : Inv { db with now := t } :=
  ⟨h.posts_lt, h.comments_plt, h.likes_plt, h.comments_ilt, h.comments_nodup,
    h.likes_nodup, h.comments_eq, h.likes_eq⟩

lemma inv_createUser (i : CreateUserInput) (db : DB) (h : Inv db) :
    Inv (createUser i db).2 := by
  unfold createUser
  split
  · exact ⟨h.posts_lt, h.comments_plt, h.likes_plt, h.comments_ilt, h.comments_nodup,
      h.likes_nodup, h.comments_eq, h.likes_eq⟩
  · exact h

lemma inv_updateUser (i : UpdateUserInput) (db : DB) (h : Inv db) :
    Inv (updateUser i db).2 := by
  unfold updateUser
  split
  · exact h
  · exact ⟨h.posts_lt, h.comments_plt, h.likes_plt, h.comments_ilt, h.comments_nodup,
      h.likes_nodup, h.comments_eq, h.likes_eq⟩

/-- A rewrite of each comment row that keeps its post_id leaves every
per-post comment count unchanged. -/
lemma commentCount_map_preserve (cs : List CommentRow) (f : CommentRow → CommentRow)
    (hf : ∀ c ∈ cs, (f c).post_id = c.post_id) (pid : Nat) :
    commentCount (cs.map f) pid = commentCount cs pid := by
  induction cs with
  | nil => rfl
  | cons c t ih =>
    have hfc := hf c (List.mem_cons_self c t)
    have iht := ih (fun d hd => hf d (List.mem_cons_of_mem c hd))
    have hcond : ((f c).post_id == pid) = (c.post_id == pid) := by rw [hfc]
    unfold commentCount at iht ⊢
    simp only [List.map_cons, List.filter_cons, hcond]
    by_cases hcp : (c.post_id == pid) = true
    · simp [hcp, iht]
    · simp [hcp, iht]

lemma inv_updateComment (i : UpdateCommentInput) (db : DB) (h : Inv db) :
    Inv (updateComment i db).2 := by
  have hpost : ∀ c ∈ db.comments,
      ((if c.id == i.id then
          { c with content := i.content, updated_at := db.now }
        else c) : CommentRow).post_id = c.post_id := by
    intro c _
    by_cases hc : (c.id == i.id) = true
    · rw [if_pos hc]
    · rw [if_neg hc]
  have hdb1 : Inv { db with comments := db.comments.map (fun c =>
      if c.id == i.id then
        { c with content := i.content, updated_at := db.now }
      else c) } := by
    refine ⟨h.posts_lt, ?_, h.likes_plt, ?_, ?_, h.likes_nodup, ?_, h.likes_eq⟩
    · intro c' hc'
      obtain ⟨c, hc, hrw⟩ := List.mem_map.mp hc'
      subst hrw
      split
      · exact h.comments_plt c hc
      · exact h.comments_plt c hc
    · intro c' hc'
      obtain ⟨c, hc, hrw⟩ := List.mem_map.mp hc'
      subst hrw
      split
      · exact h.comments_ilt c hc
      · exact h.comments_ilt c hc
    · have hids : (db.comments.map (fun c =>
          if c.id == i.id then
            { c with content := i.content, updated_at := db.now }
          else c)).map (fun c => c.id) = db.comments.map (fun c => c.id) := by
        rw [List.map_map]
        refine List.map_congr_left ?_
        intro c _
        by_cases hc : (c.id == i.id) = true
        · simp [Function.comp, hc]
        · simp [Function.comp, hc]
      rw [hids]
      exact h.comments_nodup
    · intro p hp
      have hcnt := commentCount_map_preserve db.comments (fun c =>
        if c.id == i.id then
          { c with content := i.content, updated_at := db.now }
        else c) hpost p.id
      have final : p.comments_count = (commentCount (db.comments.map (fun c =>
          if c.id == i.id then
            { c with content := i.content, updated_at := db.now }
          else c)) p.id : Int) := by
        rw [hcnt]
        exact h.comments_eq p hp
      exact final
  unfold updateComment
  split
  · exact hdb1
  · exact hdb1

lemma inv_createPost (i : CreatePostInput) (db : DB) (h : Inv db) :
    Inv (createPost i db).2 := by
  unfold createPost
  split
  · exact h
  · split
    · exact h
    · refine ⟨?_, ?_, ?_, h.comments_ilt, h.comments_nodup, h.likes_nodup, ?_, ?_⟩
      · intro p hp
        rcases List.mem_append.mp hp with h1 | h1
        · exact Nat.lt_succ_of_lt (h.posts_lt p h1)
        · rw [List.mem_singleton.mp h1]
          exact Nat.lt_succ_self _
      · intro c hc
        exact Nat.lt_succ_of_lt (h.comments_plt c hc)
      · intro l hl
        exact Nat.lt_succ_of_lt (h.likes_plt l hl)
      · intro p hp
        rcases List.mem_append.mp hp with h1 | h1
        · exact h.comments_eq p h1
        · rw [List.mem_singleton.mp h1]
          have h0 : commentCount db.comments db.next_post_id = 0 :=
            commentCount_eq_zero _ _ (fun c hc => Nat.ne_of_lt (h.comments_plt c hc))
          simp [h0]
      · intro p hp
        rcases List.mem_append.mp hp with h1 | h1
        · exact h.likes_eq p h1
        · rw [List.mem_singleton.mp h1]
          have h0 : likeCount db.likes db.next_post_id = 0 :=
            likeCount_eq_zero _ _ (fun l hl => Nat.ne_of_lt (h.likes_plt l hl))
          simp [h0]

lemma inv_updatePost (i : UpdatePostInput) (db : DB) (h : Inv db) :
    Inv (updatePost i db).2 := by
  unfold updatePost
  split
  · exact h
  · refine ⟨?_, h.comments_plt, h.likes_plt, h.comments_ilt, h.comments_nodup,
      h.likes_nodup, ?_, ?_⟩
    · intro p' hp'
      obtain ⟨p, hp, hrw⟩ := List.mem_map.mp hp'
      subst hrw
      split
      · exact h.posts_lt p hp
      · exact h.posts_lt p hp
    · intro p' hp'
      obtain ⟨p, hp, hrw⟩ := List.mem_map.mp hp'
      subst hrw
      split
      · exact h.comments_eq p hp
      · exact h.comments_eq p hp
    · intro p' hp'
      obtain ⟨p, hp, hrw⟩ := List.mem_map.mp hp'
      subst hrw
      split
      · exact h.likes_eq p hp
      · exact h.likes_eq p hp

lemma inv_createComment (i : CreateCommentInput) (db : DB) (h : Inv db) :
    Inv (createComment i db).2 := by
  unfold createComment
  split
  · exact h
  · next post t heq =>
    have hpost := head_filter_mem heq
    have hpostid : post.id = i.post_id := by simpa using hpost.2
    split
    · exact h
    · refine ⟨?_, ?_, h.likes_plt, ?_, ?_, h.likes_nodup, ?_, ?_⟩
      · intro p' hp'
        obtain ⟨p, hp, hrw⟩ := List.mem_map.mp hp'
        subst hrw
        split
        · exact h.posts_lt p hp
        · exact h.posts_lt p hp
      · intro c hc
        rcases List.mem_append.mp hc with h1 | h1
        · exact h.comments_plt c h1
        · rw [List.mem_singleton.mp h1]
          show i.post_id < db.next_post_id
          rw [← hpostid]
          exact h.posts_lt post hpost.1
      · intro c hc
        rcases List.mem_append.mp hc with h1 | h1
        · exact Nat.lt_succ_of_lt (h.comments_ilt c h1)
        · rw [List.mem_singleton.mp h1]
          exact Nat.lt_succ_self _
      · have hfresh : db.next_comment_id ∉ db.comments.map (fun c => c.id) := by
          intro hmem
          obtain ⟨c, hc, hcid⟩ := List.mem_map.mp hmem
          have h1 := h.comments_ilt c hc
          have h2 : c.id = db.next_comment_id := hcid
          omega
        have final : ((db.comments ++
            [({ id := db.next_comment_id, content := i.content, post_id := i.post_id
                author_id := i.author_id, created_at := db.now
                updated_at := db.now } : CommentRow)]).map
              (fun c => c.id)).Nodup := by
          simp only [List.map_append, List.map_cons, List.map_nil]
          exact nodup_append_singleton h.comments_nodup hfresh
        exact final
      · intro p' hp'
        obtain ⟨p, hp, hrw⟩ := List.mem_map.mp hp'
        subst hrw
        by_cases hc : (p.id == i.post_id) = true
        · rw [if_pos hc]
          have hpid : p.id = i.post_id := by simpa using hc
          have hcnt : commentCount (db.comments ++
              [{ id := db.next_comment_id, content := i.content, post_id := i.post_id
                 author_id := i.author_id, created_at := db.now, updated_at := db.now }]) p.id
              = commentCount db.comments p.id + 1 := by
            rw [commentCount_append]
            simp [hpid]
          have he := h.comments_eq post hpost.1
          have final : post.comments_count + 1 = (commentCount (db.comments ++
              [{ id := db.next_comment_id, content := i.content, post_id := i.post_id
                 author_id := i.author_id, created_at := db.now, updated_at := db.now }]) p.id : Int) := by
            rw [hcnt, he, hpostid, hpid]
            push_cast
            ring
          exact final
        · rw [if_neg hc]
          have hpid : p.id ≠ i.post_id := by simpa using hc
          have final : p.comments_count = (commentCount (db.comments ++
              [{ id := db.next_comment_id, content := i.content, post_id := i.post_id
                 author_id := i.author_id, created_at := db.now, updated_at := db.now }]) p.id : Int) := by
            rw [commentCount_append]
            simpa [Ne.symm hpid] using h.comments_eq p hp
          exact final
      · intro p' hp'
        obtain ⟨p, hp, hrw⟩ := List.mem_map.mp hp'
        subst hrw
        split
        · exact h.likes_eq p hp
        · exact h.likes_eq p hp

lemma inv_createLike (i : CreateLikeInput) (db : DB) (h : Inv db) :
    Inv (createLike i db).2 := by
  unfold createLike
  split
  · exact h
  · next post t heq =>
    have hpost := head_filter_mem heq
    have hpostid : post.id = i.post_id := by simpa using hpost.2
    split
    · next hcond =>
      have hnolike : ∀ l ∈ db.likes, ¬(l.post_id = i.post_id ∧ l.user_id = i.user_id) := by
        intro l hl hpair
        have : l ∈ db.likes.filter
            (fun m => m.post_id == i.post_id && m.user_id == i.user_id) :=
          List.mem_filter.mpr ⟨hl, by simp [hpair.1, hpair.2]⟩
        rw [List.isEmpty_iff] at hcond
        rw [hcond] at this
        cases this
      refine ⟨?_, h.comments_plt, ?_, h.comments_ilt, h.comments_nodup, ?_, ?_, ?_⟩
      · intro p' hp'
        obtain ⟨p, hp, hrw⟩ := List.mem_map.mp hp'
        subst hrw
        split
        · exact h.posts_lt p hp
        · exact h.posts_lt p hp
      · intro l hl
        rcases List.mem_append.mp hl with h1 | h1
        · exact h.likes_plt l h1
        · rw [List.mem_singleton.mp h1]
          show i.post_id < db.next_post_id
          rw [← hpostid]
          exact h.posts_lt post hpost.1
      · have hfresh : (i.post_id, i.user_id) ∉
            db.likes.map (fun l => (l.post_id, l.user_id)) := by
          intro hmem
          obtain ⟨l, hl, hlp⟩ := List.mem_map.mp hmem
          have h2 : (l.post_id, l.user_id) = (i.post_id, i.user_id) := hlp
          rw [Prod.mk.injEq] at h2
          exact hnolike l hl ⟨h2.1, h2.2⟩
        have final : ((db.likes ++
            [({ id := db.next_like_id, post_id := i.post_id
                user_id := i.user_id, created_at := db.now } : LikeRow)]).map
              (fun l => (l.post_id, l.user_id))).Nodup := by
          simp only [List.map_append, List.map_cons, List.map_nil]
          exact nodup_append_singleton h.likes_nodup hfresh
        exact final
      · intro p' hp'
        obtain ⟨p, hp, hrw⟩ := List.mem_map.mp hp'
        subst hrw
        split
        · exact h.comments_eq p hp
        · exact h.comments_eq p hp
      · intro p' hp'
        obtain ⟨p, hp, hrw⟩ := List.mem_map.mp hp'
        subst hrw
        by_cases hc : (p.id == i.post_id) = true
        · rw [if_pos hc]
          have hpid : p.id = i.post_id := by simpa using hc
          have hcnt : likeCount (db.likes ++
              [{ id := db.next_like_id, post_id := i.post_id
                 user_id := i.user_id, created_at := db.now }]) p.id
              = likeCount db.likes p.id + 1 := by
            rw [likeCount_append]
            simp [hpid]
          have he := h.likes_eq post hpost.1
          have final : post.likes_count + 1 = (likeCount (db.likes ++
              [{ id := db.next_like_id, post_id := i.post_id
                 user_id := i.user_id, created_at := db.now }]) p.id : Int) := by
            rw [hcnt, he, hpostid, hpid]
            push_cast
            ring
          exact final
        · rw [if_neg hc]
          have hpid : p.id ≠ i.post_id := by simpa using hc
          have final : p.likes_count = (likeCount (db.likes ++
              [{ id := db.next_like_id, post_id := i.post_id
                 user_id := i.user_id, created_at := db.now }]) p.id : Int) := by
            rw [likeCount_append]
            simpa [Ne.symm hpid] using h.likes_eq p hp
          exact final
    · exact h

lemma inv_deletePost (i : DeleteInput) (db : DB) (h : Inv db) :
    Inv (deletePost i db).2 := by
  unfold deletePost deletePostsWhere
  split
  · exact h
  · have hcont : ∀ x : Nat, x ≠ i.id →
        ((db.posts.filter (fun p => p.id == i.id)).map (fun p => p.id)).contains x
          = false := by
      intro x hx
      cases hc : ((db.posts.filter (fun p => p.id == i.id)).map
          (fun p => p.id)).contains x with
      | false => rfl
      | true =>
        exfalso
        have hmem : x ∈ (db.posts.filter (fun p => p.id == i.id)).map
            (fun p => p.id) := by simpa using hc
        obtain ⟨p, hp, hrw⟩ := List.mem_map.mp hmem
        have hpid : p.id = i.id := by simpa using (List.mem_filter.mp hp).2
        have h2 : p.id = x := hrw
        exact hx (by rw [← h2, hpid])
    refine ⟨?_, ?_, ?_, ?_, ?_, ?_, ?_, ?_⟩
    · intro p hp
      exact h.posts_lt p (List.mem_filter.mp hp).1
    · intro c hc
      exact h.comments_plt c (List.mem_filter.mp hc).1
    · intro l hl
      exact h.likes_plt l (List.mem_filter.mp hl).1
    · intro c hc
      exact h.comments_ilt c (List.mem_filter.mp hc).1
    · exact nodup_map_filter _ _ h.comments_nodup
    · exact nodup_map_filter _ _ h.likes_nodup
    · intro p hp
      have hpm := List.mem_filter.mp hp
      have hpid : p.id ≠ i.id := by simpa using hpm.2
      have hfix : commentCount (db.comments.filter
          (fun c => !(((db.posts.filter (fun q => q.id == i.id)).map
            (fun q => q.id)).contains c.post_id))) p.id
          = commentCount db.comments p.id := by
        unfold commentCount
        rw [filter_not_filter_of_imp]
        intro c _ hcp
        have hcp2 : c.post_id = p.id := by simpa using hcp
        rw [hcp2]
        exact hcont p.id hpid
      have final : p.comments_count = (commentCount (db.comments.filter
          (fun c => !(((db.posts.filter (fun q => q.id == i.id)).map
            (fun q => q.id)).contains c.post_id))) p.id : Int) := by
        rw [hfix]
        exact h.comments_eq p hpm.1
      exact final
    · intro p hp
      have hpm := List.mem_filter.mp hp
      have hpid : p.id ≠ i.id := by simpa using hpm.2
      have hfix : likeCount (db.likes.filter
          (fun l => !(((db.posts.filter (fun q => q.id == i.id)).map
            (fun q => q.id)).contains l.post_id))) p.id
          = likeCount db.likes p.id := by
        unfold likeCount
        rw [filter_not_filter_of_imp]
        intro l _ hlp
        have hlp2 : l.post_id = p.id := by simpa using hlp
        rw [hlp2]
        exact hcont p.id hpid
      have final : p.likes_count = (likeCount (db.likes.filter
          (fun l => !(((db.posts.filter (fun q => q.id == i.id)).map
            (fun q => q.id)).contains l.post_id))) p.id : Int) := by
        rw [hfix]
        exact h.likes_eq p hpm.1
      exact final

lemma inv_deleteComment (i : DeleteInput) (db : DB) (h : Inv db) :
    Inv (deleteComment i db).2 := by
  unfold deleteComment
  split
  · exact h
  · next comment tail heq =>
    split
    · exact h
    · next post tail2 heq2 =>
      have hcm := head_filter_mem heq
      have hcid : comment.id = i.id := by simpa using hcm.2
      have hpm := head_filter_mem heq2
      have hpostid : post.id = comment.post_id := by simpa using hpm.2
      have hsingle : db.comments.filter (fun d => d.id == i.id) = [comment] :=
        filter_key_single (fun d => d.id) (fun d => d.id == i.id) i.id
          (fun d => by simp) h.comments_nodup hcm.1 hcid
      refine ⟨?_, ?_, h.likes_plt, ?_, ?_, h.likes_nodup, ?_, ?_⟩
      · intro p' hp'
        obtain ⟨p, hp, hrw⟩ := List.mem_map.mp hp'
        subst hrw
        split
        · exact h.posts_lt p hp
        · exact h.posts_lt p hp
      · intro c hc
        exact h.comments_plt c (List.mem_filter.mp hc).1
      · intro c hc
        exact h.comments_ilt c (List.mem_filter.mp hc).1
      · exact nodup_map_filter _ _ h.comments_nodup
      · intro p' hp'
        obtain ⟨p, hp, hrw⟩ := List.mem_map.mp hp'
        subst hrw
        by_cases hc : (p.id == comment.post_id) = true
        · rw [if_pos hc]
          have hpid : p.id = comment.post_id := by simpa using hc
          have hrem := commentCount_remove db.comments i.id comment hsingle p.id
          rw [if_pos (show comment.post_id = p.id from hpid.symm)] at hrem
          have hcnt1 : 0 < commentCount db.comments p.id := by
            have hm : comment ∈ db.comments.filter (fun d => d.post_id == p.id) :=
              List.mem_filter.mpr ⟨hcm.1, by simp [hpid]⟩
            unfold commentCount
            exact List.length_pos_of_mem hm
          have he := h.comments_eq post hpm.1
          have he2 : post.comments_count = (commentCount db.comments p.id : Int) := by
            rw [he, hpostid, hpid]
          have final : max 0 (post.comments_count - 1)
              = (commentCount (db.comments.filter (fun d => !(d.id == i.id))) p.id : Int) := by
            rw [he2, max_eq_right (by omega : (0 : Int) ≤ (commentCount db.comments p.id : Int) - 1)]
            omega
          exact final
        · rw [if_neg hc]
          have hpid : p.id ≠ comment.post_id := by simpa using hc
          have hrem := commentCount_remove db.comments i.id comment hsingle p.id
          rw [if_neg (show ¬comment.post_id = p.id from fun hh => hpid hh.symm)] at hrem
          have he := h.comments_eq p hp
          have final : p.comments_count
              = (commentCount (db.comments.filter (fun d => !(d.id == i.id))) p.id : Int) := by
            omega
          exact final
      · intro p' hp'
        obtain ⟨p, hp, hrw⟩ := List.mem_map.mp hp'
        subst hrw
        split
        · exact h.likes_eq p hp
        · exact h.likes_eq p hp

lemma inv_removeLike (i : RemoveLikeInput) (db : DB) (h : Inv db) :
    Inv (removeLike i db).2 := by
  unfold removeLike
  split
  · exact h
  · next hcond =>
    have hne : db.likes.filter
        (fun m => m.post_id == i.post_id && m.user_id == i.user_id) ≠ [] := by
      intro hnil
      exact hcond (by rw [List.isEmpty_iff]; exact hnil)
    obtain ⟨l0, hl0⟩ := List.exists_mem_of_ne_nil _ hne
    have hl0m := List.mem_filter.mp hl0
    have hl0pair : l0.post_id = i.post_id ∧ l0.user_id = i.user_id := by
      simpa using hl0m.2
    have hsingle : db.likes.filter
        (fun m => m.post_id == i.post_id && m.user_id == i.user_id) = [l0] :=
      filter_key_single (fun m => (m.post_id, m.user_id))
        (fun m => m.post_id == i.post_id && m.user_id == i.user_id)
        (i.post_id, i.user_id) (fun a => by simp [Prod.ext_iff])
        h.likes_nodup hl0m.1 (by simp [hl0pair.1, hl0pair.2])
    refine ⟨?_, h.comments_plt, ?_, h.comments_ilt, h.comments_nodup, ?_, ?_, ?_⟩
    · intro p' hp'
      obtain ⟨p, hp, hrw⟩ := List.mem_map.mp hp'
      subst hrw
      split
      · exact h.posts_lt p hp
      · exact h.posts_lt p hp
    · intro l hl
      exact h.likes_plt l (List.mem_filter.mp hl).1
    · exact nodup_map_filter _ _ h.likes_nodup
    · intro p' hp'
      obtain ⟨p, hp, hrw⟩ := List.mem_map.mp hp'
      subst hrw
      split
      · exact h.comments_eq p hp
      · exact h.comments_eq p hp
    · intro p' hp'
      obtain ⟨p, hp, hrw⟩ := List.mem_map.mp hp'
      subst hrw
      by_cases hc : (p.id == i.post_id) = true
      · rw [if_pos hc]
        have hpid : p.id = i.post_id := by simpa using hc
        have hrem := likeCount_remove_pair db.likes i.post_id i.user_id l0 hsingle p.id
        rw [if_pos (show l0.post_id = p.id by rw [hl0pair.1, hpid])] at hrem
        have he := h.likes_eq p hp
        have final : p.likes_count - 1 = (likeCount (db.likes.filter
            (fun m => !(m.post_id == i.post_id && m.user_id == i.user_id))) p.id : Int) := by
          omega
        exact final
      · rw [if_neg hc]
        have hpid : p.id ≠ i.post_id := by simpa using hc
        have hrem := likeCount_remove_other db.likes i.post_id i.user_id p.id hpid
        have final : p.likes_count = (likeCount (db.likes.filter
            (fun m => !(m.post_id == i.post_id && m.user_id == i.user_id))) p.id : Int) := by
          rw [hrem]
          exact h.likes_eq p hp
        exact final

lemma inv_applyCall (c : HCall) (db : DB) (hdu : c.isDeleteUser = false) (h : Inv db) :
    Inv (applyCall c db) := by
  cases c with
  | cUser i => exact inv_createUser i db h
  | uUser i => exact inv_updateUser i db h
  | dUser i => simp [HCall.isDeleteUser] at hdu
  | cPost i => exact inv_createPost i db h
  | uPost i => exact inv_updatePost i db h
  | dPost i => exact inv_deletePost i db h
  | cComment i => exact inv_createComment i db h
  | uComment i => exact inv_updateComment i db h
  | dComment i => exact inv_deleteComment i db h
  | cLike i => exact inv_createLike i db h
  | rLike i => exact inv_removeLike i db h

lemma inv_runCalls (calls : List HCall) (db : DB)
    (hdu : ∀ c ∈ calls, c.isDeleteUser = false) (h : Inv db) :
    Inv (runCalls calls db) := by
  induction calls generalizing db with
  | nil => exact h
  | cons c cs ih =>
    exact ih _ (fun d hd => hdu d (List.mem_cons_of_mem c hd))
      (inv_now _ _ (inv_applyCall c db (hdu c (List.mem_cons_self c cs)) h))

/-- C1 (amended): for every finite sequence of handler calls from the
empty store in which deleteUser is never invoked, after every invocation
each post's likes_count equals the number of Like rows referencing it and
its comments_count equals the number of Comment rows referencing it.
(deleteUser breaks the invariant, as the counterexample shows.) -/
theorem counters_exact_without_deleteUser (calls : List HCall)
    (hdu : ∀ c ∈ calls, c.isDeleteUser = false) :
    countersExactB (runCalls calls DB.empty) = true := by
  have h := inv_runCalls calls DB.empty hdu inv_empty
  unfold countersExactB
  rw [List.all_eq_true]
  intro p hp
  have h1 := h.comments_eq p hp
  have h2 := h.likes_eq p hp
  simp [h1, h2]

/-- deleteUser-free handler sequence for the C1 witness: it creates two
users, a post, a comment and a like, then deletes the comment and removes
the like. -/
def wCallsC1 : List HCall :=
  [ HCall.cUser ⟨"a", "a@x", "A", "C", none, some Role.admin⟩
  , HCall.cUser ⟨"b", "b@x", "B", "C", none, none⟩
  , HCall.cPost ⟨"t", "c", none, none, PostType.text, 1, none⟩
  , HCall.cComment ⟨"hi", 1, 2⟩
  , HCall.cLike ⟨1, 2⟩
  , HCall.dComment ⟨1⟩
  , HCall.rLike ⟨1, 2⟩ ]

/-- C1 witness: the exactness check evaluates to true after the concrete
deleteUser-free sequence `wCallsC1`. -/
theorem counters_exact_without_deleteUser_witness :
    (∀ c ∈ wCallsC1, c.isDeleteUser = false) ∧
    countersExactB (runCalls wCallsC1 DB.empty) = true :=
  ⟨by decide, counters_exact_without_deleteUser wCallsC1 (by decide)⟩

end SchoolSocial
